import Mathlib

/-!
Formal model of the gradient-academy-dumper repository: the bounded
concurrency runner (src/utils/concurrency.py), the client rate limiter
(src/api/client.py), the SQLite persistence layer (src/db/manager.py),
the crawl orchestration (src/scraper/courses.py, src/scraper/subchapters.py,
src/main.py) and the read-side listing queries (src/downloader/video.py).

Modelling conventions: Python dictionaries are association lists in
insertion order, SQLite tables are lists of rows whose nullable columns are
`Option` values compared with SQL three-valued equality, the thread pool of
`run_with_concurrency_dict` is a fold over the submitted futures in
completion order, and wall-clock times are natural numbers in milliseconds.
-/

namespace Concurrency

/-- Python dict assignment `results[key] = r`: replaces the entry in place
when the key is already present, otherwise appends at the end (Python
dictionaries preserve insertion order). -/
def dictSet {κ β : Type} [DecidableEq κ] (results : List (κ × β)) (k : κ) (r : β) :
    List (κ × β) :=
  if results.any (fun p => decide (p.1 = k)) then
    results.map (fun p => if p.1 = k then (k, r) else p)
  else
    results ++ [(k, r)]

/-- Python dict lookup: the value bound to `k` in the dictionary, when present. -/
def dictGet {κ β : Type} [DecidableEq κ] (results : List (κ × β)) (k : κ) : Option β :=
  (results.find? (fun p => decide (p.1 = k))).map Prod.snd

/-- One iteration of the `as_completed` loop of `run_with_concurrency_dict`
(src/utils/concurrency.py, lines 100-108 and 118-123): `future.result()`
either returns the value of the call, which is stored with
`results[key] = result`, or re-raises the exception of the call, which is
caught, printed with its key, and stores nothing. -/
def runStep {κ α β : Type} [DecidableEq κ] (func : α → Except String β)
    (results : List (κ × β)) (kv : κ × α) : List (κ × β) :=
  match func kv.2 with
  | Except.ok r => dictSet results kv.1 r
  | Except.error _ => results

/-- Embedding of `run_with_concurrency_dict` (src/utils/concurrency.py).
The worker pool executes `func` once per entry of the input dictionary and
the main thread drains the futures in completion order (`as_completed`);
`completed` is that completion order, a permutation of the input entries.
The function `func` models the Python callable: `Except.ok` is a normal
return, `Except.error` a raised exception. -/
def run_with_concurrency_dict {κ α β : Type} [DecidableEq κ]
    (func : α → Except String β) (completed : List (κ × α)) : List (κ × β) :=
  completed.foldl (runStep func) []

theorem find?_map_setSame {κ β : Type} [DecidableEq κ]
    (results : List (κ × β)) (k : κ) (r : β)
    (h : results.any (fun p => decide (p.1 = k)) = true) :
    (results.map (fun p => if p.1 = k then (k, r) else p)).find?
      (fun p => decide (p.1 = k)) = some (k, r) := by
  induction results with
  | nil => simp at h
  | cons p rest ih =>
    by_cases hp : p.1 = k
    · simp [hp]
    · rw [List.any_cons] at h
      simp only [hp, decide_eq_true_eq, false_or] at h
      simp only [List.map_cons, if_neg hp]
      rw [List.find?_cons_of_neg _ (by simpa using hp)]
      exact ih (by simpa using h)

theorem find?_map_setOther {κ β : Type} [DecidableEq κ]
    (results : List (κ × β)) (k k' : κ) (r : β) (hne : k ≠ k') :
    (results.map (fun p => if p.1 = k' then (k', r) else p)).find?
      (fun p => decide (p.1 = k)) =
    results.find? (fun p => decide (p.1 = k)) := by
  induction results with
  | nil => rfl
  | cons p rest ih =>
    by_cases hp : p.1 = k'
    · simp only [List.map_cons, if_pos hp]
      rw [List.find?_cons_of_neg _ (by simpa using (Ne.symm hne)),
          List.find?_cons_of_neg _ (by simp [hp]; exact fun hh => hne hh.symm)]
      exact ih
    · simp only [List.map_cons, if_neg hp]
      by_cases hpk : p.1 = k
      · rw [List.find?_cons_of_pos _ (by simpa using hpk),
            List.find?_cons_of_pos _ (by simpa using hpk)]
      · rw [List.find?_cons_of_neg _ (by simpa using hpk),
            List.find?_cons_of_neg _ (by simpa using hpk)]
        exact ih

theorem dictGet_dictSet_self {κ β : Type} [DecidableEq κ]
    (results : List (κ × β)) (k : κ) (r : β) :
    dictGet (dictSet results k r) k = some r := by
  unfold dictSet dictGet
  by_cases h : results.any (fun p => decide (p.1 = k)) = true
  · rw [if_pos h, find?_map_setSame results k r h]
    rfl
  · rw [if_neg h, List.find?_append]
    have hnone : results.find? (fun p => decide (p.1 = k)) = none := by
      rw [List.find?_eq_none]
      intro x hx
      simp only [Bool.not_eq_true, decide_eq_false_iff_not]
      intro hxk
      exact h (List.any_eq_true.mpr ⟨x, hx, by simpa using hxk⟩)
    simp [hnone]

theorem dictGet_dictSet_ne {κ β : Type} [DecidableEq κ]
    (results : List (κ × β)) (k k' : κ) (r : β) (hne : k ≠ k') :
    dictGet (dictSet results k' r) k = dictGet results k := by
  unfold dictSet dictGet
  by_cases h : results.any (fun p => decide (p.1 = k')) = true
  · rw [if_pos h, find?_map_setOther results k k' r hne]
  · rw [if_neg h, List.find?_append]
    have : List.find? (fun p => decide (p.1 = k)) [(k', r)] = none := by
      simp [Ne.symm hne]
    rw [this]
    simp

theorem dictGet_foldl_not_mem {κ α β : Type} [DecidableEq κ]
    (func : α → Except String β) (completed : List (κ × α)) (acc : List (κ × β)) (k : κ)
    (hk : k ∉ completed.map Prod.fst) :
    dictGet (completed.foldl (runStep func) acc) k = dictGet acc k := by
  induction completed generalizing acc with
  | nil => rfl
  | cons kv rest ih =>
    simp only [List.map_cons, List.mem_cons, not_or] at hk
    rw [List.foldl_cons, ih _ hk.2]
    unfold runStep
    cases func kv.2 with
    | ok r => exact dictGet_dictSet_ne acc k kv.1 r hk.1
    | error e => rfl

theorem dictGet_foldl_mem {κ α β : Type} [DecidableEq κ]
    (func : α → Except String β) (completed : List (κ × α)) (acc : List (κ × β))
    (k : κ) (v : α)
    (hnodup : (completed.map Prod.fst).Nodup)
    (hkv : (k, v) ∈ completed)
    (hacc : dictGet acc k = none) :
    dictGet (completed.foldl (runStep func) acc) k = (func v).toOption := by
  induction completed generalizing acc with
  | nil => exact absurd hkv (List.not_mem_nil _)
  | cons kv rest ih =>
    simp only [List.map_cons, List.nodup_cons] at hnodup
    rcases List.mem_cons.mp hkv with heq | htail
    · subst heq
      rw [List.foldl_cons,
          dictGet_foldl_not_mem func rest _ k (by simpa using hnodup.1)]
      unfold runStep
      cases hf : func v with
      | ok r => simpa [Except.toOption, hf] using dictGet_dictSet_self acc k r
      | error e => simpa [Except.toOption, hf] using hacc
    · have hk_rest : k ∈ rest.map Prod.fst :=
        List.mem_map.mpr ⟨(k, v), htail, rfl⟩
      have hne : k ≠ kv.1 := fun h => hnodup.1 (h ▸ hk_rest)
      rw [List.foldl_cons]
      refine ih _ hnodup.2 htail ?_
      unfold runStep
      cases func kv.2 with
      | ok r => rw [dictGet_dictSet_ne acc k kv.1 r hne]; exact hacc
      | error e => exact hacc

/-- C1: counterexample. The claim states that every input key of
`run_with_concurrency_dict` appears in the output mapping, bound either to
the result of the call or to an explicit per-key failure marker. With the
single-entry input dictionary binding key 0 to value 0 and a processing
function that raises for every input, the output dictionary is empty: the
input key 0 is dropped and no failure entry for it exists in the output
(the single-entry input has exactly one completion order, the list itself). -/
theorem C1_counterexample_key_dropped :
    run_with_concurrency_dict
      (fun _ : Nat => (Except.error "boom" : Except String Nat)) [(0, 0)] = [] ∧
    dictGet (run_with_concurrency_dict
      (fun _ : Nat => (Except.error "boom" : Except String Nat)) [(0, 0)]) 0 = none ∧
    ([(0, 0)] : List (Nat × Nat)) ≠ [] :=
  ⟨rfl, rfl, by decide⟩

/-- C1 (amended): for every completion order of the futures, every input
key whose processing call returns a value appears in the output dictionary
of `run_with_concurrency_dict` bound to that value, while a key whose call
raises is absent from the output altogether — the exception is only
printed, and no per-key failure marker is recorded, so failed keys are
dropped from the output rather than marked. -/
theorem C1_run_with_concurrency_dict_amended {κ α β : Type} [DecidableEq κ]
    (func : α → Except String β) (items completed : List (κ × α))
    (hperm : completed.Perm items) (hnodup : (items.map Prod.fst).Nodup)
    (k : κ) (v : α) (hkv : (k, v) ∈ items) :
    dictGet (run_with_concurrency_dict func completed) k = (func v).toOption :=
  dictGet_foldl_mem func completed [] k v
    ((hperm.map Prod.fst).nodup_iff.mpr hnodup) (hperm.mem_iff.mpr hkv) rfl

/-- C1 witness: a two-entry dictionary whose futures complete in reverse
submission order; the key whose call succeeds is bound to its result and
the key whose call raises is absent from the output. -/
theorem C1_run_with_concurrency_dict_amended_witness :
    dictGet (run_with_concurrency_dict
      (fun n : Nat => if n = 5 then (Except.error "boom" : Except String Nat)
        else Except.ok (n + 1))
      [(1, 5), (0, 2)]) 0 = some 3 ∧
    dictGet (run_with_concurrency_dict
      (fun n : Nat => if n = 5 then (Except.error "boom" : Except String Nat)
        else Except.ok (n + 1))
      [(1, 5), (0, 2)]) 1 = none := by
  constructor
  · have h := C1_run_with_concurrency_dict_amended
      (fun n : Nat => if n = 5 then (Except.error "boom" : Except String Nat)
        else Except.ok (n + 1))
      [(0, 2), (1, 5)] [(1, 5), (0, 2)]
      (by decide) (by decide) 0 2 (by decide)
    simpa using h
  · have h := C1_run_with_concurrency_dict_amended
      (fun n : Nat => if n = 5 then (Except.error "boom" : Except String Nat)
        else Except.ok (n + 1))
      [(0, 2), (1, 5)] [(1, 5), (0, 2)]
      (by decide) (by decide) 1 5 (by decide)
    simpa using h

end Concurrency

namespace RateLimit

/-- Minimum inter-request delay of `GradientClient._rate_limit`
(src/api/client.py line 33), in milliseconds. -/
def MIN_INTERVAL_MS : Nat := 500

/-- Decomposition of one call of `GradientClient._rate_limit`
(src/api/client.py, lines 29-35) by one thread. The body performs two
separate accesses to the shared attribute `last_request_time` with no lock
around them: it first reads the attribute — call the value read `last` —
and sleeps for `0.5 - (now - last)` seconds when less than half a second
has elapsed, then writes the current time back. A thread that entered at
time `now` having read `last` therefore completes its acquisition, and
stores into the attribute, the time `rate_limit_wake last now`. -/
def rate_limit_wake (last now : Nat) : Nat :=
  if now - last < MIN_INTERVAL_MS then now + (MIN_INTERVAL_MS - (now - last)) else now

/-- Two concurrent callers of `_rate_limit` under the interleaving in which
both threads read `last_request_time` before either writes it back: each
computes its wake time from the same stale value `last`. The pair of
acquisition times is returned. Because the method body holds no lock, this
interleaving is admissible whenever two workers of the thread pool issue
requests at the same time. -/
def rate_limit_both_read_first (last t1 t2 : Nat) : Nat × Nat :=
  (rate_limit_wake last t1, rate_limit_wake last t2)

/-- The serialized discipline the specification requires: the second
caller enters only after the first has written its acquisition time, so it
reads the timestamp stored by the first acquisition. -/
def rate_limit_serialized (last t1 t2 : Nat) : Nat × Nat :=
  let w1 := rate_limit_wake last t1
  (w1, rate_limit_wake w1 (max t2 w1))

/-- C2: the code contradicts the claim. With `last_request_time = 0` and
two threads entering `_rate_limit` at time 600 ms, the interleaving in
which both threads read the shared timestamp before either writes it back
lets both acquisitions pass at time 600 ms — the elapsed interval between
the two consecutive acquisitions is 0, under-counting the 500 ms minimum —
whereas the exclusive update discipline described by the claim spaces the
same two acquisitions 500 ms apart. The method takes no lock and performs
no atomic compare-and-set, so the unserialized interleaving is admissible. -/
theorem C2_rate_limit_unserialized_undercount :
    rate_limit_both_read_first 0 600 600 = (600, 600) ∧
    (rate_limit_both_read_first 0 600 600).2 -
      (rate_limit_both_read_first 0 600 600).1 = 0 ∧
    0 < MIN_INTERVAL_MS ∧
    rate_limit_serialized 0 600 600 = (600, 1100) := by
  decide

end RateLimit

namespace Store

/-- SQL equality on nullable columns: a NULL compares unequal to
everything, including another NULL. SQLite uses this equality to detect
primary-key and UNIQUE conflicts and to evaluate join conditions. -/
def sqlEq {α : Type} [DecidableEq α] : Option α → Option α → Bool
  | some a, some b => decide (a = b)
  | _, _ => false

/-- Row of the `courses` table (src/db/manager.py, lines 28-38). The
`created_at` column has a default and is never named by any statement of
the repository, so it is omitted. Primary key `id`, UNIQUE `slug`,
NOT NULL `course_name` and `slug`. -/
structure CourseRow where
  id : Option String
  course_name : Option String
  slug : Option String
  cover_url : Option String
  thumbnail_url : Option String
  trailer_url : Option String
  is_free : Option Bool
  is_coming_soon : Option Bool
deriving DecidableEq, Repr

/-- Row of the `chapters` table (src/db/manager.py, lines 41-50).
Primary key `id`, NOT NULL `course_id` and `chapter_name`. -/
structure ChapterRow where
  id : Option String
  course_id : Option String
  chapter_name : Option String
  order_index : Option Int
  subchapter_counts : Option Int
  is_coming_soon : Option Bool
deriving DecidableEq, Repr

/-- Row of the `subchapters` table (src/db/manager.py, lines 53-65).
Primary key `id`, UNIQUE `subchapter_slug`, NOT NULL `chapter_id`,
`subchapter_name`, `subchapter_slug` and `type`. -/
structure SubchapterRow where
  id : Option String
  chapter_id : Option String
  subchapter_name : Option String
  subchapter_slug : Option String
  type : Option String
  order_index : Option Int
  duration : Option String
  is_free : Option Bool
  thumbnail_url : Option String
deriving DecidableEq, Repr

/-- Row of the `videos` table (src/db/manager.py, lines 68-83).
Primary key `id`, NOT NULL `subchapter_id`. -/
structure VideoRow where
  id : Option String
  subchapter_id : Option String
  video_url : Option String
  drm_video_url : Option String
  token : Option String
  drm_token : Option String
  mux_playback_id : Option String
  duration : Option String
  description : Option String
  thumbnail_url : Option String
  is_free : Option Bool
  is_drm_protected : Option Bool
deriving DecidableEq, Repr

/-- Row of the `lecturers` table (src/db/manager.py, lines 86-92).
Primary key `id`, NOT NULL `name`. -/
structure LecturerRow where
  id : Option String
  name : Option String
  role : Option String
  photo_url : Option String
deriving DecidableEq, Repr

/-- Row of the `video_lecturers` join table (src/db/manager.py, lines
95-101). Composite primary key `(video_id, lecturer_id)`; both columns
are nullable. -/
structure VideoLecturerRow where
  video_id : Option String
  lecturer_id : Option String
deriving DecidableEq, Repr

/-- Row of the `books` table (src/db/manager.py, lines 104-115). Primary
key `slug`, NOT NULL `title`. The REAL columns `rating` and
`percentage_progress` are modelled as integers: no statement of the
repository computes with them, they are only stored and read back. -/
structure BookRow where
  slug : Option String
  title : Option String
  rating : Option Int
  book_cover_url : Option String
  authors : Option String
  category : Option String
  percentage_progress : Option Int
  course_id : Option String
deriving DecidableEq, Repr

/-- Kernel of a SQLite `INSERT OR REPLACE` statement over a table whose
rows carry a primary-key column `keyf` and possibly a UNIQUE column
`uniqf` (pass a constant `none` for tables without one): SQLite deletes
every existing row that conflicts with the new row on either constraint —
a stored NULL never conflicts — then appends the new row. The whole
statement is atomic. -/
def replaceRows {ρ : Type} (keyf uniqf : ρ → Option String) (t : List ρ) (r : ρ) :
    List ρ :=
  (t.filter fun q => !(sqlEq (keyf q) (keyf r) || sqlEq (uniqf q) (uniqf r))) ++ [r]

/-- `DatabaseManager.insert_course` (src/db/manager.py, lines 133-156):
one atomic `INSERT OR REPLACE INTO courses` statement inside a
try/except. A NOT NULL violation (`course_name` or `slug` absent) raises
`sqlite3.Error`, which the method catches, printing the error and
returning `False` with the table untouched; otherwise the statement
replaces by the primary key `id` and the UNIQUE column `slug`, and the
method commits and returns `True`. The translation of the bound Python
dict into the row happens at the call sites of the orchestrator. -/
def insert_course (t : List CourseRow) (c : CourseRow) : Bool × List CourseRow :=
  if c.course_name.isNone || c.slug.isNone then (false, t)
  else (true, replaceRows (fun q => q.id) (fun q => q.slug) t c)

/-- `DatabaseManager.insert_chapter` (src/db/manager.py, lines 158-179):
`INSERT OR REPLACE INTO chapters`, keyed by the primary key `id` only;
NOT NULL `course_id` and `chapter_name`. -/
def insert_chapter (t : List ChapterRow) (c : ChapterRow) : Bool × List ChapterRow :=
  if c.course_id.isNone || c.chapter_name.isNone then (false, t)
  else (true, replaceRows (fun q => q.id) (fun _ => none) t c)

/-- `DatabaseManager.insert_subchapter` (src/db/manager.py, lines
181-206): `INSERT OR REPLACE INTO subchapters`, replacing by the primary
key `id` and the UNIQUE column `subchapter_slug`; NOT NULL `chapter_id`,
`subchapter_name`, `subchapter_slug` and `type`. -/
def insert_subchapter (t : List SubchapterRow) (s : SubchapterRow) :
    Bool × List SubchapterRow :=
  if s.chapter_id.isNone || s.subchapter_name.isNone || s.subchapter_slug.isNone
      || s.type.isNone then (false, t)
  else (true, replaceRows (fun q => q.id) (fun q => q.subchapter_slug) t s)

/-- `DatabaseManager.insert_video` (src/db/manager.py, lines 208-236):
`INSERT OR REPLACE INTO videos`, keyed by the primary key `id` only;
NOT NULL `subchapter_id`. -/
def insert_video (t : List VideoRow) (v : VideoRow) : Bool × List VideoRow :=
  if v.subchapter_id.isNone then (false, t)
  else (true, replaceRows (fun q => q.id) (fun _ => none) t v)

/-- `DatabaseManager.insert_lecturer` (src/db/manager.py, lines 238-257):
`INSERT OR REPLACE INTO lecturers`, keyed by `id`; NOT NULL `name`. -/
def insert_lecturer (t : List LecturerRow) (l : LecturerRow) :
    Bool × List LecturerRow :=
  if l.name.isNone then (false, t)
  else (true, replaceRows (fun q => q.id) (fun _ => none) t l)

/-- `DatabaseManager.insert_video_lecturer` (src/db/manager.py, lines
259-273): `INSERT OR REPLACE INTO video_lecturers`, keyed by the
composite primary key; no NOT NULL columns. -/
def insert_video_lecturer (t : List VideoLecturerRow) (r : VideoLecturerRow) :
    Bool × List VideoLecturerRow :=
  (true,
    (t.filter fun q =>
      !(sqlEq q.video_id r.video_id && sqlEq q.lecturer_id r.lecturer_id)) ++ [r])

/-- `DatabaseManager.insert_book` (src/db/manager.py, lines 275-298):
`INSERT OR REPLACE INTO books`, keyed by the primary key `slug`;
NOT NULL `title`. -/
def insert_book (t : List BookRow) (b : BookRow) : Bool × List BookRow :=
  if b.title.isNone then (false, t)
  else (true, replaceRows (fun q => q.slug) (fun _ => none) t b)

/-- The relational file of §4.4: the six entity tables plus the
video-lecturer join table, as created by `DatabaseManager.setup_database`. -/
structure DB where
  courses : List CourseRow
  chapters : List ChapterRow
  subchapters : List SubchapterRow
  videos : List VideoRow
  lecturers : List LecturerRow
  video_lecturers : List VideoLecturerRow
  books : List BookRow
deriving DecidableEq, Repr

/-- The empty database right after `setup_database`. -/
def emptyDB : DB := ⟨[], [], [], [], [], [], []⟩

theorem replaceRows_idem {ρ : Type} (keyf uniqf : ρ → Option String)
    (t : List ρ) (r : ρ)
    (hself : (sqlEq (keyf r) (keyf r) || sqlEq (uniqf r) (uniqf r)) = true) :
    replaceRows keyf uniqf (replaceRows keyf uniqf t r) r =
      replaceRows keyf uniqf t r := by
  unfold replaceRows
  rw [List.filter_append]
  have h1 : (List.filter (fun q =>
      !(sqlEq (keyf q) (keyf r) || sqlEq (uniqf q) (uniqf r))) [r]) = [] := by
    rw [List.filter_eq_nil_iff]
    intro a ha
    rw [List.mem_singleton] at ha
    subst ha
    rw [hself]
    simp
  have h2 : (List.filter (fun q =>
        !(sqlEq (keyf q) (keyf r) || sqlEq (uniqf q) (uniqf r)))
      (List.filter (fun q =>
        !(sqlEq (keyf q) (keyf r) || sqlEq (uniqf q) (uniqf r))) t)) =
      List.filter (fun q =>
        !(sqlEq (keyf q) (keyf r) || sqlEq (uniqf q) (uniqf r))) t :=
    List.filter_eq_self.mpr (fun a ha => (List.mem_filter.mp ha).2)
  rw [h1, h2, List.append_nil]

theorem filter_key_replaceRows {ρ : Type} (keyf uniqf : ρ → Option String)
    (t : List ρ) (r : ρ)
    (hself : sqlEq (keyf r) (keyf r) = true) :
    (replaceRows keyf uniqf t r).filter (fun q => sqlEq (keyf q) (keyf r)) = [r] := by
  unfold replaceRows
  rw [List.filter_append]
  have h1 : (List.filter (fun q => sqlEq (keyf q) (keyf r))
      (List.filter (fun q =>
        !(sqlEq (keyf q) (keyf r) || sqlEq (uniqf q) (uniqf r))) t)) = [] := by
    rw [List.filter_eq_nil_iff]
    intro q hq
    have hP := List.of_mem_filter hq
    cases hKq : sqlEq (keyf q) (keyf r) <;> simp_all
  have h2 : List.filter (fun q => sqlEq (keyf q) (keyf r)) [r] = [r] := by
    rw [List.filter_eq_self]
    intro a ha
    rw [List.mem_singleton] at ha
    subst ha
    exact hself
  rw [h1, h2, List.nil_append]

theorem mem_replaceRows_of_noconflict {ρ : Type} (keyf uniqf : ρ → Option String)
    (t : List ρ) (r q : ρ) (hq : q ∈ t)
    (hk : sqlEq (keyf q) (keyf r) = false) (hu : sqlEq (uniqf q) (uniqf r) = false) :
    q ∈ replaceRows keyf uniqf t r := by
  unfold replaceRows
  refine List.mem_append_left _ (List.mem_filter.mpr ⟨hq, ?_⟩)
  simp [hk, hu]

/-- C3: upsert idempotence and replace semantics of the persistence store,
keyed by primary id, shown for `insert_course` and `insert_subchapter`.
Upserting the same entity twice with identical fields leaves the table
exactly as after the first upsert (one row with those fields); upserting
again with changed fields under the same primary id leaves exactly one row
with that id, carrying the new fields; a prior row whose id and slug both
differ from those of the upserted entity is never deleted. The slug
hypotheses express the schema invariant that slugs are unique per entity
kind, so a re-upsert of a previously seen entity conflicts only with the
row it replaces. -/
theorem C3_upsert_idempotent_replace
    (tc : List CourseRow) (c c' : CourseRow)
    (hc1 : c.course_name.isNone = false) (hc2 : c.slug.isNone = false)
    (hc1' : c'.course_name.isNone = false) (hc2' : c'.slug.isNone = false)
    (hcid : c.id.isSome = true) (hcid' : c'.id = c.id)
    (ts : List SubchapterRow) (s s' : SubchapterRow)
    (hs1 : s.chapter_id.isNone = false) (hs2 : s.subchapter_name.isNone = false)
    (hs3 : s.subchapter_slug.isNone = false) (hs4 : s.type.isNone = false)
    (hs1' : s'.chapter_id.isNone = false) (hs2' : s'.subchapter_name.isNone = false)
    (hs3' : s'.subchapter_slug.isNone = false) (hs4' : s'.type.isNone = false)
    (hsid : s.id.isSome = true) (hsid' : s'.id = s.id) :
    (insert_course (insert_course tc c).2 c = (true, (insert_course tc c).2)) ∧
    ((insert_course (insert_course tc c).2 c').2.filter
      (fun q => sqlEq q.id c.id) = [c']) ∧
    (∀ q ∈ tc, sqlEq q.id c.id = false → sqlEq q.slug c.slug = false →
      sqlEq q.slug c'.slug = false →
      q ∈ (insert_course (insert_course tc c).2 c').2) ∧
    (insert_subchapter (insert_subchapter ts s).2 s = (true, (insert_subchapter ts s).2)) ∧
    ((insert_subchapter (insert_subchapter ts s).2 s').2.filter
      (fun q => sqlEq q.id s.id) = [s']) ∧
    (∀ q ∈ ts, sqlEq q.id s.id = false → sqlEq q.subchapter_slug s.subchapter_slug = false →
      sqlEq q.subchapter_slug s'.subchapter_slug = false →
      q ∈ (insert_subchapter (insert_subchapter ts s).2 s').2) := by
  obtain ⟨ci, hci⟩ := Option.isSome_iff_exists.mp hcid
  obtain ⟨si, hsi⟩ := Option.isSome_iff_exists.mp hsid
  have hcguard : (c.course_name.isNone || c.slug.isNone) = false := by
    simp [hc1, hc2]
  have hcguard' : (c'.course_name.isNone || c'.slug.isNone) = false := by
    simp [hc1', hc2']
  have hsguard : (s.chapter_id.isNone || s.subchapter_name.isNone
      || s.subchapter_slug.isNone || s.type.isNone) = false := by
    simp [hs1, hs2, hs3, hs4]
  have hsguard' : (s'.chapter_id.isNone || s'.subchapter_name.isNone
      || s'.subchapter_slug.isNone || s'.type.isNone) = false := by
    simp [hs1', hs2', hs3', hs4']
  have hcself : (sqlEq c.id c.id || sqlEq c.slug c.slug) = true := by
    rw [hci]
    simp [sqlEq]
  have hsself : (sqlEq s.id s.id || sqlEq s.subchapter_slug s.subchapter_slug) = true := by
    rw [hsi]
    simp [sqlEq]
  have hcself' : sqlEq c'.id c'.id = true := by
    rw [hcid', hci]
    simp [sqlEq]
  have hsself' : sqlEq s'.id s'.id = true := by
    rw [hsid', hsi]
    simp [sqlEq]
  refine ⟨?_, ?_, ?_, ?_, ?_, ?_⟩
  · simp only [insert_course, hcguard, Bool.false_eq_true, if_false]
    rw [replaceRows_idem _ _ tc c hcself]
  · simp only [insert_course, hcguard, hcguard', Bool.false_eq_true, if_false]
    have := filter_key_replaceRows (fun q : CourseRow => q.id) (fun q => q.slug)
      (replaceRows (fun q => q.id) (fun q => q.slug) tc c) c' hcself'
    simpa [hcid'] using this
  · intro q hq hk hu hu'
    simp only [insert_course, hcguard, hcguard', Bool.false_eq_true, if_false]
    refine mem_replaceRows_of_noconflict _ _ _ c' q ?_ ?_ hu'
    · exact mem_replaceRows_of_noconflict _ _ tc c q hq hk hu
    · rwa [hcid']
  · simp only [insert_subchapter, hsguard, Bool.false_eq_true, if_false]
    rw [replaceRows_idem _ _ ts s hsself]
  · simp only [insert_subchapter, hsguard, hsguard', Bool.false_eq_true, if_false]
    have := filter_key_replaceRows (fun q : SubchapterRow => q.id)
      (fun q => q.subchapter_slug)
      (replaceRows (fun q => q.id) (fun q => q.subchapter_slug) ts s) s' hsself'
    simpa [hsid'] using this
  · intro q hq hk hu hu'
    simp only [insert_subchapter, hsguard, hsguard', Bool.false_eq_true, if_false]
    refine mem_replaceRows_of_noconflict _ _ _ s' q ?_ ?_ hu'
    · exact mem_replaceRows_of_noconflict _ _ ts s q hq hk hu
    · rwa [hsid']

/-- Concrete course row used by the witnesses: an unrelated pre-existing row. -/
def exCourseOther : CourseRow :=
  { id := some "c0", course_name := some "Other", slug := some "other",
    cover_url := none, thumbnail_url := none, trailer_url := none,
    is_free := none, is_coming_soon := none }

/-- Concrete course row used by the witnesses. -/
def exCourseIntro : CourseRow :=
  { id := some "c1", course_name := some "Intro", slug := some "intro",
    cover_url := none, thumbnail_url := none, trailer_url := none,
    is_free := some true, is_coming_soon := none }

/-- The same course as `exCourseIntro` with changed mutable fields. -/
def exCourseIntroV2 : CourseRow :=
  { id := some "c1", course_name := some "Intro v2", slug := some "intro",
    cover_url := none, thumbnail_url := none, trailer_url := none,
    is_free := some false, is_coming_soon := none }

/-- Concrete subchapter row used by the witnesses. -/
def exSubchapter : SubchapterRow :=
  { id := some "s1", chapter_id := some "ch1",
    subchapter_name := some "S", subchapter_slug := some "s",
    type := some "video", order_index := some 0, duration := none,
    is_free := none, thumbnail_url := none }

/-- Concrete video row used by the witnesses. -/
def exVideoRow : VideoRow :=
  { id := some "v0", subchapter_id := some "s0", video_url := none,
    drm_video_url := none, token := none, drm_token := none,
    mux_playback_id := none, duration := none, description := none,
    thumbnail_url := none, is_free := none, is_drm_protected := none }

/-- A video row missing its NOT NULL `subchapter_id`, whose upsert fails. -/
def exBadVideoRow : VideoRow :=
  { id := some "v1", subchapter_id := none, video_url := none,
    drm_video_url := none, token := none, drm_token := none,
    mux_playback_id := none, duration := none, description := none,
    thumbnail_url := none, is_free := none, is_drm_protected := none }

/-- A course row missing its NOT NULL `slug`, whose upsert fails. -/
def exBadCourseRow : CourseRow :=
  { id := some "c2", course_name := some "Broken", slug := none,
    cover_url := none, thumbnail_url := none, trailer_url := none,
    is_free := none, is_coming_soon := none }

/-- C3 witness: a concrete course and subchapter upserted twice, once with
identical fields and once with a changed name, over a table holding one
unrelated row. -/
theorem C3_upsert_idempotent_replace_witness :
    (insert_course (insert_course [exCourseOther] exCourseIntro).2 exCourseIntro =
      (true, (insert_course [exCourseOther] exCourseIntro).2)) ∧
    ((insert_course (insert_course [exCourseOther] exCourseIntro).2
        exCourseIntroV2).2.filter (fun q => sqlEq q.id (some "c1")) =
      [exCourseIntroV2]) ∧
    exCourseOther ∈ (insert_course (insert_course [exCourseOther] exCourseIntro).2
        exCourseIntroV2).2 := by
  have h := C3_upsert_idempotent_replace
    [exCourseOther] exCourseIntro exCourseIntro rfl rfl rfl rfl rfl rfl
    [] exSubchapter exSubchapter rfl rfl rfl rfl rfl rfl rfl rfl rfl rfl
  have h2 := C3_upsert_idempotent_replace
    [exCourseOther] exCourseIntro exCourseIntroV2 rfl rfl rfl rfl rfl rfl
    [] exSubchapter exSubchapter rfl rfl rfl rfl rfl rfl rfl rfl rfl rfl
  refine ⟨h.1, ?_, ?_⟩
  · have := h2.2.1
    simpa [exCourseIntro] using this
  · exact h2.2.2.1 exCourseOther (by decide) (by decide) (by decide) (by decide)

/-- C6: a failed upsert returns `False` and leaves the prior state of the
table completely unchanged — a failed replace never partially overwrites
any field of any row — shown for `insert_video` and `insert_course`, the
operations named by the claim. In the model the one failure mode of the
atomic statement is a constraint violation, which raises before any row is
written; the method catches the error and returns the table as it was. -/
theorem C6_insert_failure_leaves_table_untouched
    (tv : List VideoRow) (v : VideoRow) (tc : List CourseRow) (c : CourseRow) :
    ((insert_video tv v).1 = false → (insert_video tv v).2 = tv) ∧
    ((insert_course tc c).1 = false → (insert_course tc c).2 = tc) := by
  constructor
  · intro hfail
    unfold insert_video at hfail ⊢
    by_cases h : v.subchapter_id.isNone = true
    · rw [if_pos h]
    · rw [if_neg h] at hfail
      simp at hfail
  · intro hfail
    unfold insert_course at hfail ⊢
    by_cases h : (c.course_name.isNone || c.slug.isNone) = true
    · rw [if_pos h]
    · rw [if_neg h] at hfail
      simp at hfail

/-- C6 witness: a video row missing its NOT NULL `subchapter_id` and a
course row missing its NOT NULL `slug` both fail, each leaving the table
it was upserted into exactly as it was. -/
theorem C6_insert_failure_leaves_table_untouched_witness :
    (insert_video [exVideoRow] exBadVideoRow).1 = false ∧
    (insert_video [exVideoRow] exBadVideoRow).2 = [exVideoRow] ∧
    (insert_course [] exBadCourseRow).1 = false ∧
    (insert_course [] exBadCourseRow).2 = [] := by
  have h := C6_insert_failure_leaves_table_untouched
    [exVideoRow] exBadVideoRow [] exBadCourseRow
  exact ⟨by decide, h.1 (by decide), by decide, h.2 (by decide)⟩

/-- Row shape returned by `VideoDownloader.get_course_videos`
(src/downloader/video.py, lines 69-94): the columns selected from the
four-way join. -/
structure CourseVideoListing where
  course_name : Option String
  chapter_name : Option String
  subchapter_name : Option String
  video_id : Option String
  video_url : Option String
  drm_video_url : Option String
  token : Option String
  drm_token : Option String
  mux_playback_id : Option String
  subchapter_id : Option String
  chapter_order : Option Int
  subchapter_order : Option Int
deriving DecidableEq, Repr

/-- SQL `ORDER BY` comparison on a nullable integer column: NULL sorts
before every value. -/
def sqlLeInt : Option Int → Option Int → Bool
  | none, _ => true
  | some _, none => false
  | some a, some b => decide (a ≤ b)

/-- Strict version of `sqlLeInt`. -/
def sqlLtInt : Option Int → Option Int → Bool
  | none, none => false
  | none, some _ => true
  | some _, none => false
  | some a, some b => decide (a < b)

/-- The two-column comparison of `ORDER BY ch.order_index, s.order_index`:
strictly smaller chapter order, or equal chapter order and subchapter
order not larger. -/
def listingLe (a b : CourseVideoListing) : Bool :=
  sqlLtInt a.chapter_order b.chapter_order ||
    (decide (a.chapter_order = b.chapter_order) &&
      sqlLeInt a.subchapter_order b.subchapter_order)

/-- `listingLe` as a decidable relation, for the sort. -/
def listingLE : CourseVideoListing → CourseVideoListing → Prop :=
  fun a b => listingLe a b = true

instance : DecidableRel listingLE :=
  fun a b => (inferInstance : Decidable (listingLe a b = true))

theorem sqlLtInt_trichotomy (x y : Option Int) :
    sqlLtInt x y = true ∨ x = y ∨ sqlLtInt y x = true := by
  cases x <;> cases y <;> simp [sqlLtInt] <;> omega

theorem sqlLeInt_total (x y : Option Int) :
    sqlLeInt x y = true ∨ sqlLeInt y x = true := by
  cases x <;> cases y <;> simp [sqlLeInt] <;> omega

theorem sqlLtInt_trans (x y z : Option Int)
    (h1 : sqlLtInt x y = true) (h2 : sqlLtInt y z = true) : sqlLtInt x z = true := by
  cases x <;> cases y <;> cases z <;> simp_all [sqlLtInt] <;> omega

theorem sqlLeInt_trans (x y z : Option Int)
    (h1 : sqlLeInt x y = true) (h2 : sqlLeInt y z = true) : sqlLeInt x z = true := by
  cases x <;> cases y <;> cases z <;> simp_all [sqlLeInt] <;> omega

instance : IsTotal CourseVideoListing listingLE := by
  constructor
  intro a b
  unfold listingLE listingLe
  rcases sqlLtInt_trichotomy a.chapter_order b.chapter_order with h | h | h
  · left
    simp [h]
  · rcases sqlLeInt_total a.subchapter_order b.subchapter_order with h2 | h2
    · left
      simp [h, h2]
    · right
      simp [h, h2]
  · right
    simp [h]

instance : IsTrans CourseVideoListing listingLE := by
  constructor
  intro a b c hab hbc
  unfold listingLE listingLe at *
  rw [Bool.or_eq_true] at hab hbc
  rcases hab with hab | hab <;> rcases hbc with hbc | hbc
  · simp [sqlLtInt_trans _ _ _ hab hbc]
  · rw [Bool.and_eq_true, decide_eq_true_eq] at hbc
    rw [hbc.1] at hab
    simp [hab]
  · rw [Bool.and_eq_true, decide_eq_true_eq] at hab
    rw [hab.1]
    simp [hbc]
  · rw [Bool.and_eq_true, decide_eq_true_eq] at hab hbc
    rw [Bool.or_eq_true]
    right
    rw [Bool.and_eq_true, decide_eq_true_eq]
    exact ⟨hab.1.trans hbc.1, sqlLeInt_trans _ _ _ hab.2 hbc.2⟩

/-- The chapters the read-side queries associate with a course row: both
`get_course_videos` and `list_available_courses` (src/downloader/video.py)
and the statistics listing of `show_stats` (src/main.py, lines 95-104)
join chapters to courses with the same ON condition
`c.slug = ch.course_id`. -/
def chaptersOfCourse (db : DB) (c : CourseRow) : List ChapterRow :=
  db.chapters.filter (fun ch => sqlEq c.slug ch.course_id)

/-- The subchapters joined to a chapter row on `ch.id = s.chapter_id`. -/
def subchaptersOfChapter (db : DB) (ch : ChapterRow) : List SubchapterRow :=
  db.subchapters.filter (fun s => sqlEq ch.id s.chapter_id)

/-- The videos joined to a subchapter row on `s.id = v.subchapter_id`. -/
def videosOfSubchapter (db : DB) (s : SubchapterRow) : List VideoRow :=
  db.videos.filter (fun v => sqlEq s.id v.subchapter_id)

/-- The FROM/JOIN/WHERE part of `VideoDownloader.get_course_videos`
(src/downloader/video.py, lines 69-94): the inner join of courses,
chapters, subchapters and videos restricted to the course with the given
slug, in table order, before the ORDER BY clause is applied. -/
def courseVideoJoin (db : DB) (slug : String) : List CourseVideoListing :=
  (db.courses.filter (fun c => sqlEq c.slug (some slug))).flatMap (fun c =>
    (chaptersOfCourse db c).flatMap (fun ch =>
      (subchaptersOfChapter db ch).flatMap (fun s =>
        (videosOfSubchapter db s).map (fun v =>
          { course_name := c.course_name, chapter_name := ch.chapter_name,
            subchapter_name := s.subchapter_name, video_id := v.id,
            video_url := v.video_url, drm_video_url := v.drm_video_url,
            token := v.token, drm_token := v.drm_token,
            mux_playback_id := v.mux_playback_id, subchapter_id := s.id,
            chapter_order := ch.order_index,
            subchapter_order := s.order_index }))))

/-- `VideoDownloader.get_course_videos` with its
`ORDER BY ch.order_index, s.order_index`: the join rows sorted by
(chapter order, subchapter order), NULLs first. -/
def get_course_videos (db : DB) (slug : String) : List CourseVideoListing :=
  List.insertionSort listingLE (courseVideoJoin db slug)

/-- A concrete database written through the upsert operations: one course,
one chapter, and three subchapters inserted with order values [2, 0, 1]
in that insertion order, each carrying one video. -/
def dbOrderExample : DB :=
  { courses := (insert_course [] exCourseIntro).2,
    chapters := (insert_chapter []
      { id := some "ch1", course_id := some "intro",
        chapter_name := some "Chapter", order_index := some 0,
        subchapter_counts := some 3, is_coming_soon := none }).2,
    subchapters := (insert_subchapter (insert_subchapter (insert_subchapter []
      { id := some "sA", chapter_id := some "ch1",
        subchapter_name := some "A", subchapter_slug := some "a",
        type := some "video", order_index := some 2, duration := none,
        is_free := none, thumbnail_url := none }).2
      { id := some "sB", chapter_id := some "ch1",
        subchapter_name := some "B", subchapter_slug := some "b",
        type := some "video", order_index := some 0, duration := none,
        is_free := none, thumbnail_url := none }).2
      { id := some "sC", chapter_id := some "ch1",
        subchapter_name := some "C", subchapter_slug := some "c",
        type := some "video", order_index := some 1, duration := none,
        is_free := none, thumbnail_url := none }).2,
    videos := (insert_video (insert_video (insert_video []
      { id := some "vA", subchapter_id := some "sA", video_url := none,
        drm_video_url := none, token := none, drm_token := none,
        mux_playback_id := none, duration := none, description := none,
        thumbnail_url := none, is_free := none, is_drm_protected := none }).2
      { id := some "vB", subchapter_id := some "sB", video_url := none,
        drm_video_url := none, token := none, drm_token := none,
        mux_playback_id := none, duration := none, description := none,
        thumbnail_url := none, is_free := none, is_drm_protected := none }).2
      { id := some "vC", subchapter_id := some "sC", video_url := none,
        drm_video_url := none, token := none, drm_token := none,
        mux_playback_id := none, duration := none, description := none,
        thumbnail_url := none, is_free := none, is_drm_protected := none }).2,
    lecturers := [], video_lecturers := [], books := [] }

/-- The per-course row of the `show_stats` listing (src/main.py, lines
95-104): the course LEFT JOINed to its chapters on `c.slug = ch.course_id`
and through them to subchapters on `ch.id = s.chapter_id`, grouped by
course, counting distinct non-null chapter and subchapter ids. -/
def show_stats_course_rows (db : DB) : List (Option String × Option String × Nat × Nat) :=
  db.courses.map (fun c =>
    let chs := chaptersOfCourse db c
    let subs := chs.flatMap (fun ch => subchaptersOfChapter db ch)
    (c.course_name, c.slug,
      ((chs.filterMap (fun ch => ch.id)).dedup).length,
      ((subs.filterMap (fun sub => sub.id)).dedup).length))

theorem sqlEq_some_self (x : String) : sqlEq (some x) (some x) = true := by
  simp [sqlEq]

theorem self_mem_replaceRows {ρ : Type} (keyf uniqf : ρ → Option String)
    (t : List ρ) (r : ρ) : r ∈ replaceRows keyf uniqf t r := by
  unfold replaceRows
  exact List.mem_append_right _ (List.mem_singleton.mpr rfl)

theorem mem_replaceRows_elim {ρ : Type} (keyf uniqf : ρ → Option String)
    (t : List ρ) (r q : ρ) (hq : q ∈ replaceRows keyf uniqf t r) :
    q ∈ t ∨ q = r := by
  unfold replaceRows at hq
  rcases List.mem_append.mp hq with h | h
  · exact Or.inl (List.mem_filter.mp h).1
  · exact Or.inr (List.mem_singleton.mp h)

theorem filter_filter_of_imp {ρ : Type} (p r : ρ → Bool) (t : List ρ)
    (h : ∀ q ∈ t, p q = true → r q = true) :
    (t.filter r).filter p = t.filter p := by
  induction t with
  | nil => rfl
  | cons a rest ih =>
    have ih' := ih (fun q hq hp => h q (List.mem_cons_of_mem _ hq) hp)
    cases hp : p a with
    | true =>
      have hr : r a = true := h a (List.mem_cons_self _ _) hp
      simp [List.filter_cons, hp, hr, ih']
    | false =>
      cases hr : r a with
      | true => simp [List.filter_cons, hp, hr, ih']
      | false => simp [List.filter_cons, hp, hr, ih']

/-- C8: for every database state and course slug — hence regardless of the
order in which the rows were inserted — `get_course_videos` returns the
rows of the join sorted ascending on (chapter order, subchapter order),
and returns exactly the join rows (a permutation of the unsorted join: the
ordering drops and adds nothing). On the concrete database above, whose
three subchapters were inserted with order values [2, 0, 1], the query
returns subchapter order values [0, 1, 2]. -/
theorem C8_get_course_videos_ordering :
    (∀ (db : DB) (slug : String),
      List.Sorted listingLE (get_course_videos db slug)) ∧
    (∀ (db : DB) (slug : String),
      (get_course_videos db slug).Perm (courseVideoJoin db slug)) ∧
    ((get_course_videos dbOrderExample "intro").map
      (fun r => r.subchapter_order) = [some 0, some 1, some 2]) := by
  refine ⟨?_, ?_, ?_⟩
  · intro db slug
    exact List.sorted_insertionSort listingLE (courseVideoJoin db slug)
  · intro db slug
    exact List.perm_insertionSort listingLE (courseVideoJoin db slug)
  · decide

end Store

namespace Scraper

open Store

/-- `models.Course` (src/api/models.py): a validated course record. -/
structure ApiCourse where
  id : String
  course_name : String
  slug : String
  cover : Option String
  thumbnail : Option String
  trailer : Option String
  is_free : Option Bool
  is_coming_soon : Option Bool
  is_new : Option Bool
deriving DecidableEq, Repr

/-- `models.Chapter` (src/api/models.py). -/
structure ApiChapter where
  chapter_id : String
  chapter_name : String
  order : Int
  subchapter_counts : Int
  is_coming_soon : Option Bool
deriving DecidableEq, Repr

/-- `models.Subchapter` (src/api/models.py). -/
structure ApiSubchapter where
  id : String
  type : String
  order : Int
  subchapter_name : String
  subchapter_slug : String
  duration : Option String
  is_free : Option Bool
  thumbnail : Option String
  video_id : Option String
  exercise_id : Option String
deriving DecidableEq, Repr

/-- `models.Lecturer` (src/api/models.py). -/
structure ApiLecturer where
  id : String
  name : String
  role : Option String
  photo : Option String
deriving DecidableEq, Repr

/-- `models.Video` (src/api/models.py). -/
structure ApiVideo where
  id : String
  video_url : Option String
  duration : Option String
  description : Option String
  thumbnail : Option String
  is_free : Option Bool
  drm_video_url : Option String
  is_drm_protected : Option Bool
  token : Option String
  drm_token : Option String
  mux_playback_id : Option String
  lecturers : Option (List ApiLecturer)
deriving DecidableEq, Repr

/-- `models.SubchapterDetail` (src/api/models.py). -/
structure ApiSubchapterDetail where
  id : String
  subchapter_name : String
  subchapter_slug : String
  type_name : String
  thumbnail : Option String
  order : Int
  video : Option ApiVideo
  chapter_id : String
  chapter_name : String
deriving DecidableEq, Repr

/-- A raw book entry of the course content response. The client does not
validate books — `data.get("books", [])` passes them through as loose
dictionaries — so only the keys read by `insert_book` are modelled. -/
structure ApiBook where
  slug : Option String
  title : Option String
  rating : Option Int
  book_cover_url : Option String
  authors : Option String
  category : Option String
  percentage_progress : Option Int
deriving DecidableEq, Repr

/-- Parsed course content response of `GradientClient.get_course_content`:
the chapter list and the book list. -/
structure ApiContent where
  chapters : List ApiChapter
  books : List ApiBook
deriving DecidableEq, Repr

/-- The fetch layer as seen by the scrapers, one field per
`GradientClient` operation. `Except.ok` is the value the client method
returns; `Except.error` is an exception escaping the client into the
calling scraper method, where it is caught. `get_subchapter_detail`
itself catches validation and HTTP errors and returns `None`, so its
benign no-data outcome is `Except.ok none`; `Except.error` stands for an
exception the client does not catch there (for example a JSON decoding
error raised inside `request`). -/
structure Api where
  courses : Except String (List ApiCourse)
  content : String → Except String ApiContent
  subchapters : String → Except String (List ApiSubchapter)
  detail : String → String → Except String (Option ApiSubchapterDetail)

/-- Observable events of a crawl: each API fetch, and each invocation of
the bounded-concurrency runner recorded with its progress description,
its worker bound and the number of submitted entries. The runner logs an
invocation only when the submitted dictionary is non-empty, matching the
early return of `run_with_concurrency_dict` on an empty input. -/
inductive Event
  | fetchCourses
  | fetchContent (slug : String)
  | fetchSubchapters (chapterId : String)
  | fetchDetail (courseSlug subchapterSlug : String)
  | runnerStart (description : String) (maxWorkers : Nat) (numItems : Nat)
deriving DecidableEq, Repr

/-- `MAX_WORKERS` (src/config.py, line 33): the global worker-count
setting, defaulting to 5; both runner call sites omit `max_workers` and so
use this default. -/
def MAX_WORKERS : Nat := 5

/-- Crawl state: the database plus the log of observable events. -/
structure St where
  db : DB
  log : List Event
deriving DecidableEq, Repr

/-- Append one observable event to the crawl log. -/
def logEvent (s : St) (e : Event) : St := { s with log := s.log ++ [e] }

/-- The VALUES tuple of `insert_course` applied to a course model dump
(the `is_new` field of the dump is not bound by the statement). -/
def courseRowOfApi (c : ApiCourse) : CourseRow :=
  { id := some c.id, course_name := some c.course_name, slug := some c.slug,
    cover_url := c.cover, thumbnail_url := c.thumbnail,
    trailer_url := c.trailer, is_free := c.is_free,
    is_coming_soon := c.is_coming_soon }

/-- The VALUES tuple of `insert_chapter`: the chapter model dump plus the
`course_id` argument supplied by the caller. -/
def chapterRowOfApi (ch : ApiChapter) (courseId : String) : ChapterRow :=
  { id := some ch.chapter_id, course_id := some courseId,
    chapter_name := some ch.chapter_name, order_index := some ch.order,
    subchapter_counts := some ch.subchapter_counts,
    is_coming_soon := ch.is_coming_soon }

/-- The VALUES tuple of `insert_subchapter`: the subchapter model dump
plus the `chapter_id` argument supplied by the caller. -/
def subchapterRowOfApi (sub : ApiSubchapter) (chapterId : String) : SubchapterRow :=
  { id := some sub.id, chapter_id := some chapterId,
    subchapter_name := some sub.subchapter_name,
    subchapter_slug := some sub.subchapter_slug, type := some sub.type,
    order_index := some sub.order, duration := sub.duration,
    is_free := sub.is_free, thumbnail_url := sub.thumbnail }

/-- The VALUES tuple of `insert_video`: the video sub-record plus the
`subchapter_id` argument supplied by the caller. -/
def videoRowOfApi (v : ApiVideo) (subchapterId : String) : VideoRow :=
  { id := some v.id, subchapter_id := some subchapterId,
    video_url := v.video_url, drm_video_url := v.drm_video_url,
    token := v.token, drm_token := v.drm_token,
    mux_playback_id := v.mux_playback_id, duration := v.duration,
    description := v.description, thumbnail_url := v.thumbnail,
    is_free := v.is_free, is_drm_protected := v.is_drm_protected }

/-- The VALUES tuple of `insert_lecturer`. -/
def lecturerRowOfApi (l : ApiLecturer) : LecturerRow :=
  { id := some l.id, name := some l.name, role := l.role,
    photo_url := l.photo }

/-- The VALUES tuple of `insert_book`: the raw book dictionary plus the
`course_id` argument supplied by the caller. -/
def bookRowOfApi (b : ApiBook) (courseId : String) : BookRow :=
  { slug := b.slug, title := b.title, rating := b.rating,
    book_cover_url := b.book_cover_url, authors := b.authors,
    category := b.category, percentage_progress := b.percentage_progress,
    course_id := some courseId }

/-- Upsert a fetched course into the database; the success boolean the
scraper ignores is dropped. -/
def dbInsertCourse (db : DB) (c : ApiCourse) : DB :=
  { db with courses := (insert_course db.courses (courseRowOfApi c)).2 }

/-- Upsert a fetched chapter under the given course reference. -/
def dbInsertChapter (db : DB) (ch : ApiChapter) (courseId : String) : DB :=
  { db with chapters := (insert_chapter db.chapters (chapterRowOfApi ch courseId)).2 }

/-- Upsert a fetched book under the given course reference. -/
def dbInsertBook (db : DB) (b : ApiBook) (courseId : String) : DB :=
  { db with books := (insert_book db.books (bookRowOfApi b courseId)).2 }

/-- Upsert a fetched subchapter under the given chapter reference. -/
def dbInsertSubchapter (db : DB) (sub : ApiSubchapter) (chapterId : String) : DB :=
  { db with subchapters :=
      (insert_subchapter db.subchapters (subchapterRowOfApi sub chapterId)).2 }

/-- Upsert a fetched video under the given subchapter reference. -/
def dbInsertVideo (db : DB) (v : ApiVideo) (subchapterId : String) : DB :=
  { db with videos := (insert_video db.videos (videoRowOfApi v subchapterId)).2 }

/-- Upsert a fetched lecturer. -/
def dbInsertLecturer (db : DB) (l : ApiLecturer) : DB :=
  { db with lecturers := (insert_lecturer db.lecturers (lecturerRowOfApi l)).2 }

/-- Upsert one video-lecturer link. -/
def dbInsertVideoLecturerLink (db : DB) (videoId lecturerId : String) : DB :=
  { db with video_lecturers :=
      (insert_video_lecturer db.video_lecturers
        { video_id := some videoId, lecturer_id := some lecturerId }).2 }

/-- `CourseScraper.scrape_courses` (src/scraper/courses.py, lines 19-41):
fetch the course list; any exception is caught and yields the empty list;
otherwise upsert each course in order — the success boolean is ignored —
and return the course dumps. -/
def scrape_courses (api : Api) (s : St) : St × List ApiCourse :=
  let s := logEvent s Event.fetchCourses
  match api.courses with
  | Except.error _ => (s, [])
  | Except.ok cs =>
    (cs.foldl (fun s c => { s with db := dbInsertCourse s.db c }) s, cs)

/-- `CourseScraper.scrape_course_content` (src/scraper/courses.py, lines
43-70): fetch chapters and books for one course slug; any exception is
caught and yields the empty content; otherwise upsert each chapter and
each book, linked to the course by the slug that was used for the fetch,
and return the content. -/
def scrape_course_content (api : Api) (courseSlug : String) (s : St) :
    St × ApiContent :=
  let s := logEvent s (Event.fetchContent courseSlug)
  match api.content courseSlug with
  | Except.error _ => (s, { chapters := [], books := [] })
  | Except.ok content =>
    let s := content.chapters.foldl
      (fun s ch => { s with db := dbInsertChapter s.db ch courseSlug }) s
    let s := content.books.foldl
      (fun s b => { s with db := dbInsertBook s.db b courseSlug }) s
    (s, content)

/-- `SubchapterScraper.scrape_subchapters` (src/scraper/subchapters.py,
lines 18-40): fetch the subchapter list of one chapter; any exception is
caught and yields the empty list; otherwise upsert each subchapter,
linked to the chapter id used for the fetch. -/
def scrape_subchapters (api : Api) (chapterId : String) (s : St) :
    St × List ApiSubchapter :=
  let s := logEvent s (Event.fetchSubchapters chapterId)
  match api.subchapters chapterId with
  | Except.error _ => (s, [])
  | Except.ok subs =>
    (subs.foldl (fun s sub => { s with db := dbInsertSubchapter s.db sub chapterId }) s,
      subs)

/-- `SubchapterScraper.scrape_subchapter_detail`
(src/scraper/subchapters.py, lines 42-69): fetch the detail record of one
subchapter. An exception is caught and yields `none`; a fetch that
returns no record yields `none` with no write; a record without a video
sub-record is returned with no write; a record with a video upserts the
video under the detail id and then, when the video carries lecturers,
upserts each lecturer and its video-lecturer link (iterating an absent or
empty lecturer list runs the loop body zero times, so folding over the
list is exact). -/
def scrape_subchapter_detail (api : Api) (courseSlug subchapterSlug : String)
    (s : St) : St × Option ApiSubchapterDetail :=
  let s := logEvent s (Event.fetchDetail courseSlug subchapterSlug)
  match api.detail courseSlug subchapterSlug with
  | Except.error _ => (s, none)
  | Except.ok none => (s, none)
  | Except.ok (some d) =>
    match d.video with
    | none => (s, some d)
    | some v =>
      let s := { s with db := dbInsertVideo s.db v d.id }
      let ls := v.lecturers.getD []
      (ls.foldl (fun s l =>
        { s with db := dbInsertVideoLecturerLink (dbInsertLecturer s.db l) v.id l.id }) s,
        some d)

/-- Result of `scrape_chapter_subchapters_with_details`: the subchapter
dumps and the mapping from subchapter slug to the details that were
found (entries whose detail came back `None` are filtered out). -/
structure ChapterScrapeResult where
  subchapters : List ApiSubchapter
  details : List (String × ApiSubchapterDetail)
deriving DecidableEq, Repr

/-- The per-subchapter unit of work submitted to the runner in
`scrape_chapter_subchapters_with_details`: `process_subchapter` fetches
the detail for the slug of one subchapter and pairs the slug with the
outcome. -/
def detailStep (api : Api) (courseSlug : String)
    (acc : St × List (String × Option ApiSubchapterDetail)) (sub : ApiSubchapter) :
    St × List (String × Option ApiSubchapterDetail) :=
  let r := scrape_subchapter_detail api courseSlug sub.subchapter_slug acc.1
  (r.1, acc.2 ++ [(sub.subchapter_slug, r.2)])

/-- `SubchapterScraper.scrape_chapter_subchapters_with_details`
(src/scraper/subchapters.py, lines 71-102): scrape and upsert the
subchapters of one chapter, then fan the per-subchapter detail fetches
out through `run_with_concurrency_dict` — invoked only when the
subchapter list is non-empty, with the default `MAX_WORKERS` bound and
the description shown in the progress bar. The futures are drained in
the canonical completion order, submission order; every per-key unit of
work touches only the rows of its own subchapter. -/
def scrape_chapter_subchapters_with_details (api : Api)
    (courseSlug chapterId : String) (s : St) : St × ChapterScrapeResult :=
  let fetched := scrape_subchapters api chapterId s
  if fetched.2.isEmpty then (fetched.1, { subchapters := fetched.2, details := [] })
  else
    let s1 := logEvent fetched.1 (Event.runnerStart
      ("Processing subchapters for chapter " ++ chapterId) MAX_WORKERS fetched.2.length)
    let folded := fetched.2.foldl (detailStep api courseSlug) (s1, [])
    (folded.1,
      { subchapters := fetched.2,
        details := folded.2.filterMap (fun p => p.2.map (fun d => (p.1, d))) })

/-- One iteration of the chapter loop of `scrape_all` (src/main.py,
lines 49-51): the subchapter stage of one chapter, keeping the state. -/
def chapterStep (api : Api) (courseSlug : String) (s : St) (ch : ApiChapter) : St :=
  (scrape_chapter_subchapters_with_details api courseSlug ch.chapter_id s).1

/-- One iteration of the course loop of `scrape_all` (src/main.py, lines
44-51): fetch and upsert the content of one course — the fetch keyed by
the slug taken from the course dump — then run every returned chapter
through the subchapter stage. -/
def courseStep (api : Api) (s : St) (course : ApiCourse) : St :=
  let r := scrape_course_content api course.slug s
  r.2.chapters.foldl (chapterStep api course.slug) r.1

/-- `scrape_all` (src/main.py, lines 31-54): the full crawl. The course
list is fetched once and each course upserted; then the courses are
processed one after another in a plain `for` loop — for each course the
content is fetched and upserted, and each of its chapters goes through
the subchapter stage. -/
def scrape_all (api : Api) : St :=
  let s0 : St := { db := emptyDB, log := [] }
  let r := scrape_courses api s0
  r.2.foldl (courseStep api) r.1

/-- The per-course unit of work of `scrape_all_course_content`
(`process_course` in src/scraper/courses.py): fetch and upsert the
content for the slug of one course and pair the slug with the content. -/
def contentStep (api : Api) (acc : St × List (String × ApiContent))
    (course : ApiCourse) : St × List (String × ApiContent) :=
  let r := scrape_course_content api course.slug acc.1
  (r.1, acc.2 ++ [(course.slug, r.2)])

/-- `CourseScraper.scrape_all_course_content` (src/scraper/courses.py,
lines 72-97): scrape the course list, then fan the per-course content
fetches out through `run_with_concurrency_dict` keyed by enumeration
index, invoked only when the course list is non-empty, with the default
`MAX_WORKERS` bound; the per-course results `(slug, content)` are
collected into a mapping keyed by slug. This method is not invoked by
the `scrape_all` entry point. -/
def scrape_all_course_content (api : Api) (s : St) :
    St × List (String × ApiContent) :=
  let r := scrape_courses api s
  let courses := r.2
  if courses.isEmpty then (r.1, [])
  else
    let s := logEvent r.1
      (Event.runnerStart "Processing courses" MAX_WORKERS courses.length)
    courses.foldl (contentStep api) (s, [])

theorem log_foldl_of_pres {α : Type} (g : St → α → St)
    (hg : ∀ s a, (g s a).log = s.log) (l : List α) (s : St) :
    (l.foldl g s).log = s.log := by
  induction l generalizing s with
  | nil => rfl
  | cons a rest ih => rw [List.foldl_cons, ih, hg]

theorem log_scrape_courses (api : Api) (s : St) :
    (scrape_courses api s).1.log = s.log ++ [Event.fetchCourses] := by
  cases hc : api.courses with
  | error e => simp [scrape_courses, hc, logEvent]
  | ok cs =>
    simp only [scrape_courses, hc]
    exact log_foldl_of_pres
      (fun s c => { s with db := dbInsertCourse s.db c }) (fun s c => rfl) cs _

theorem log_scrape_course_content (api : Api) (slug : String) (s : St) :
    (scrape_course_content api slug s).1.log =
      s.log ++ [Event.fetchContent slug] := by
  cases hc : api.content slug with
  | error e => simp [scrape_course_content, hc, logEvent]
  | ok content =>
    simp only [scrape_course_content, hc]
    rw [log_foldl_of_pres
        (fun s b => { s with db := dbInsertBook s.db b slug }) (fun s b => rfl),
      log_foldl_of_pres
        (fun s ch => { s with db := dbInsertChapter s.db ch slug }) (fun s ch => rfl)]
    rfl

theorem log_scrape_subchapters (api : Api) (chId : String) (s : St) :
    (scrape_subchapters api chId s).1.log =
      s.log ++ [Event.fetchSubchapters chId] := by
  cases hc : api.subchapters chId with
  | error e => simp [scrape_subchapters, hc, logEvent]
  | ok subs =>
    simp only [scrape_subchapters, hc]
    exact log_foldl_of_pres
      (fun s sub => { s with db := dbInsertSubchapter s.db sub chId })
      (fun s sub => rfl) subs _

theorem log_scrape_subchapter_detail (api : Api) (cs ss : String) (s : St) :
    (scrape_subchapter_detail api cs ss s).1.log =
      s.log ++ [Event.fetchDetail cs ss] := by
  cases hd : api.detail cs ss with
  | error e => simp [scrape_subchapter_detail, hd, logEvent]
  | ok od =>
    cases od with
    | none => simp [scrape_subchapter_detail, hd, logEvent]
    | some d =>
      cases hv : d.video with
      | none => simp [scrape_subchapter_detail, hd, hv, logEvent]
      | some v =>
        simp only [scrape_subchapter_detail, hd, hv]
        exact log_foldl_of_pres
          (fun s l =>
            { s with db := dbInsertVideoLecturerLink (dbInsertLecturer s.db l) v.id l.id })
          (fun s l => rfl) _ _

theorem log_detail_foldl (api : Api) (cs : String) (subs : List ApiSubchapter)
    (s : St) (acc : List (String × Option ApiSubchapterDetail)) :
    (subs.foldl (detailStep api cs) (s, acc)).1.log =
      s.log ++ subs.map (fun sub => Event.fetchDetail cs sub.subchapter_slug) := by
  induction subs generalizing s acc with
  | nil => simp
  | cons sub rest ih =>
    rw [List.foldl_cons]
    simp only [detailStep]
    rw [ih, log_scrape_subchapter_detail]
    simp

theorem mem_log_chapter_stage (api : Api) (cs chId : String) (s : St) :
    ∀ e ∈ (scrape_chapter_subchapters_with_details api cs chId s).1.log,
      e ∈ s.log ∨ e = Event.fetchSubchapters chId ∨
      (∃ n, e = Event.runnerStart
        ("Processing subchapters for chapter " ++ chId) MAX_WORKERS n) ∨
      (∃ sl, e = Event.fetchDetail cs sl) := by
  intro e he
  simp only [scrape_chapter_subchapters_with_details] at he
  by_cases hemp : (scrape_subchapters api chId s).2.isEmpty = true
  · rw [if_pos hemp] at he
    rw [log_scrape_subchapters] at he
    rcases List.mem_append.mp he with h | h
    · exact Or.inl h
    · rw [List.mem_singleton] at h
      exact Or.inr (Or.inl h)
  · rw [if_neg hemp] at he
    rw [log_detail_foldl] at he
    simp only [logEvent, log_scrape_subchapters, List.append_assoc] at he
    rcases List.mem_append.mp he with h | h
    · exact Or.inl h
    · rcases List.mem_append.mp h with h2 | h2
      · rw [List.mem_singleton] at h2
        exact Or.inr (Or.inl h2)
      · rcases List.mem_append.mp h2 with h3 | h3
        · rw [List.mem_singleton] at h3
          exact Or.inr (Or.inr (Or.inl ⟨_, h3⟩))
        · rcases List.mem_map.mp h3 with ⟨sub, _, hmap⟩
          exact Or.inr (Or.inr (Or.inr ⟨sub.subchapter_slug, hmap.symm⟩))

theorem mem_log_foldl {α : Type} (g : St → α → St) (Q : Event → Prop)
    (hg : ∀ s a, ∀ e ∈ (g s a).log, e ∈ s.log ∨ Q e) :
    ∀ (l : List α) (s : St), ∀ e ∈ (l.foldl g s).log, e ∈ s.log ∨ Q e := by
  intro l
  induction l with
  | nil =>
    intro s e he
    exact Or.inl he
  | cons a rest ih =>
    intro s e he
    rw [List.foldl_cons] at he
    rcases ih (g s a) e he with h | h
    · exact hg s a e h
    · exact Or.inr h

/-- Events an orchestration step below the course-list level can append:
a content, subchapter or detail fetch, or a subchapter-stage runner
invocation — always with the global `MAX_WORKERS` bound. -/
def SubEvent (e : Event) : Prop :=
  (∃ sl, e = Event.fetchContent sl) ∨
  (∃ cid, e = Event.fetchSubchapters cid) ∨
  (∃ cid n, e = Event.runnerStart
    ("Processing subchapters for chapter " ++ cid) MAX_WORKERS n) ∨
  (∃ a b, e = Event.fetchDetail a b)

theorem mem_log_courseStep (api : Api) (s : St) (course : ApiCourse) :
    ∀ e ∈ (courseStep api s course).log, e ∈ s.log ∨ SubEvent e := by
  intro e he
  unfold courseStep at he
  have hstage := mem_log_foldl (chapterStep api course.slug)
    SubEvent
    (fun s ch e he => by
      rcases mem_log_chapter_stage api course.slug ch.chapter_id s e he with
        h | h | h | h
      · exact Or.inl h
      · exact Or.inr (Or.inr (Or.inl ⟨_, h⟩))
      · rcases h with ⟨n, hn⟩
        exact Or.inr (Or.inr (Or.inr (Or.inl ⟨_, n, hn⟩)))
      · rcases h with ⟨sl, hsl⟩
        exact Or.inr (Or.inr (Or.inr (Or.inr ⟨_, sl, hsl⟩))))
    _ _ e he
  rcases hstage with h | h
  · rw [log_scrape_course_content] at h
    rcases List.mem_append.mp h with h2 | h2
    · exact Or.inl h2
    · rw [List.mem_singleton] at h2
      exact Or.inr (Or.inl ⟨_, h2⟩)
  · exact Or.inr h

theorem mem_log_scrape_all (api : Api) :
    ∀ e ∈ (scrape_all api).log, e = Event.fetchCourses ∨ SubEvent e := by
  intro e he
  unfold scrape_all at he
  have := mem_log_foldl (courseStep api) SubEvent
    (fun s c e he => mem_log_courseStep api s c e he) _ _ e he
  rcases this with h | h
  · rw [log_scrape_courses] at h
    simp only [List.nil_append] at h
    rw [List.mem_singleton] at h
    exact Or.inl h
  · exact Or.inr h

/-- Recognizes the course-level runner invocation of
`scrape_all_course_content`, by its progress description. -/
def isCourseRunner : Event → Bool
  | Event.runnerStart d _ _ => decide (d = "Processing courses")
  | _ => false

/-- Recognizes any runner invocation. -/
def isRunner : Event → Bool
  | Event.runnerStart _ _ _ => true
  | _ => false

/-- Recognizes a course-content fetch. -/
def isContentFetch : Event → Bool
  | Event.fetchContent _ => true
  | _ => false

/-- Recognizes the root course-list fetch. -/
def isFetchCourses : Event → Bool
  | Event.fetchCourses => true
  | _ => false

theorem sub_desc_ne_course_desc (cid : String) :
    ("Processing subchapters for chapter " ++ cid) ≠ "Processing courses" := by
  intro h
  have hlen := congrArg String.length h
  rw [String.length_append] at hlen
  have h35 : ("Processing subchapters for chapter ").length = 35 := rfl
  have h18 : ("Processing courses").length = 18 := rfl
  omega

theorem log_mono_foldl_pair {α β : Type} (g : (St × β) → α → (St × β))
    (hg : ∀ p a, ∀ e ∈ p.1.log, e ∈ (g p a).1.log) :
    ∀ (l : List α) (p : St × β), ∀ e ∈ p.1.log, e ∈ (l.foldl g p).1.log := by
  intro l
  induction l with
  | nil =>
    intro p e he
    exact he
  | cons a rest ih =>
    intro p e he
    rw [List.foldl_cons]
    exact ih (g p a) e (hg p a e he)

/-- Concrete two-course fetch layer for the C4 theorems: courses with
slugs "a" and "b", one chapter each, one subchapter each, no details. -/
def apiTwoCourses : Api :=
  { courses := Except.ok
      [{ id := "idA", course_name := "Course A", slug := "a",
         cover := none, thumbnail := none, trailer := none,
         is_free := none, is_coming_soon := none, is_new := none },
       { id := "idB", course_name := "Course B", slug := "b",
         cover := none, thumbnail := none, trailer := none,
         is_free := none, is_coming_soon := none, is_new := none }],
    content := fun sl =>
      if sl = "a" then Except.ok
        { chapters := [{ chapter_id := "chA", chapter_name := "A1",
                         order := 0, subchapter_counts := 1, is_coming_soon := none }],
          books := [] }
      else if sl = "b" then Except.ok
        { chapters := [{ chapter_id := "chB", chapter_name := "B1",
                         order := 0, subchapter_counts := 1, is_coming_soon := none }],
          books := [] }
      else Except.ok { chapters := [], books := [] },
    subchapters := fun cid =>
      if cid = "chA" then Except.ok
        [{ id := "sA1", type := "video", order := 0,
           subchapter_name := "Sub A", subchapter_slug := "sa",
           duration := none, is_free := none, thumbnail := none,
           video_id := none, exercise_id := none }]
      else if cid = "chB" then Except.ok
        [{ id := "sB1", type := "video", order := 0,
           subchapter_name := "Sub B", subchapter_slug := "sb",
           duration := none, is_free := none, thumbnail := none,
           video_id := none, exercise_id := none }]
      else Except.ok [],
    detail := fun _ _ => Except.ok none }

/-- C4: counterexample. On a two-course crawl the full-crawl entry point
`scrape_all` fetches the two course contents strictly one after the other:
the content fetch of course "b" is logged only after the entire subchapter
stage of course "a" has run, and the only runner invocations in the whole
log are the two subchapter-stage ones. No course-level runner invocation
(description "Processing courses", the one the runner-based
`scrape_all_course_content` emits) occurs, so the level-2 course-content
fetch of the full crawl is not performed through the bounded-concurrency
runner, contradicting the claim. -/
theorem C4_counterexample_course_content_sequential :
    (scrape_all apiTwoCourses).log =
      [Event.fetchCourses,
       Event.fetchContent "a",
       Event.fetchSubchapters "chA",
       Event.runnerStart "Processing subchapters for chapter chA" MAX_WORKERS 1,
       Event.fetchDetail "a" "sa",
       Event.fetchContent "b",
       Event.fetchSubchapters "chB",
       Event.runnerStart "Processing subchapters for chapter chB" MAX_WORKERS 1,
       Event.fetchDetail "b" "sb"] ∧
    (scrape_all apiTwoCourses).log.filter isCourseRunner = [] ∧
    (scrape_all apiTwoCourses).log.countP isFetchCourses = 1 :=
  ⟨rfl, rfl, rfl⟩

/-- C4 (amended): during a full crawl the course list is fetched in a
single root call and each course is upserted, but the level-2
course-content fetch is performed sequentially across courses by a plain
loop — for every fetch layer, no course-level runner invocation appears
in the log of `scrape_all`. Every runner invocation `scrape_all` does
make (the level 3→4 subchapter fan-outs) is bounded by the same global
`MAX_WORKERS` setting. The concurrent course-content fan-out exists as
`scrape_all_course_content`, which runs the per-course content fetches
through the bounded-concurrency runner under that same global bound, but
that method is not invoked by the full-crawl entry point. -/
theorem C4_scrape_all_course_fanout_amended (api : Api) :
    ((scrape_all api).log.countP isCourseRunner = 0) ∧
    (∀ d w n, Event.runnerStart d w n ∈ (scrape_all api).log → w = MAX_WORKERS) ∧
    (∀ cs, api.courses = Except.ok cs → cs ≠ [] →
      Event.runnerStart "Processing courses" MAX_WORKERS cs.length ∈
        (scrape_all_course_content api { db := emptyDB, log := [] }).1.log) := by
  refine ⟨?_, ?_, ?_⟩
  · rw [List.countP_eq_zero]
    intro e he
    rcases mem_log_scrape_all api e he with h | h
    · subst h
      simp [isCourseRunner]
    · unfold SubEvent at h
      rcases h with ⟨sl, h⟩ | ⟨cid, h⟩ | ⟨cid, n, h⟩ | ⟨a, b, h⟩ <;> subst h
      · simp [isCourseRunner]
      · simp [isCourseRunner]
      · simp [isCourseRunner, sub_desc_ne_course_desc cid]
      · simp [isCourseRunner]
  · intro d w n hmem
    rcases mem_log_scrape_all api _ hmem with h | h
    · exact absurd h (by simp)
    · unfold SubEvent at h
      rcases h with ⟨sl, h⟩ | ⟨cid, h⟩ | ⟨cid, m, h⟩ | ⟨a, b, h⟩
      · exact absurd h (by simp)
      · exact absurd h (by simp)
      · injection h with h1 h2 h3
      · exact absurd h (by simp)
  · intro cs hcs hne
    have hsc2 : (scrape_courses api { db := emptyDB, log := [] }).2 = cs := by
      simp [scrape_courses, hcs]
    simp only [scrape_all_course_content, hsc2]
    have hnemp : cs.isEmpty = false := by
      cases cs with
      | nil => exact absurd rfl hne
      | cons c rest => rfl
    rw [if_neg (by rw [hnemp]; simp)]
    refine log_mono_foldl_pair (contentStep api) ?_ cs _ _ ?_
    · intro p a e he
      show e ∈ (scrape_course_content api a.slug p.1).1.log
      rw [log_scrape_course_content]
      exact List.mem_append_left _ he
    · simp [logEvent]

/-- C4 witness for the amended statement, on the concrete two-course
fetch layer: no course-level runner invocation in the full crawl, the
subchapter-stage runner invocation that does occur carries the global
bound, and `scrape_all_course_content` on the same fetch layer logs the
course-level runner invocation over both courses. -/
theorem C4_scrape_all_course_fanout_amended_witness :
    ((scrape_all apiTwoCourses).log.countP isCourseRunner = 0) ∧
    (5 = MAX_WORKERS) ∧
    (Event.runnerStart "Processing courses" MAX_WORKERS 2 ∈
      (scrape_all_course_content apiTwoCourses { db := emptyDB, log := [] }).1.log) := by
  have h := C4_scrape_all_course_fanout_amended apiTwoCourses
  refine ⟨h.1, ?_, ?_⟩
  · exact h.2.1 "Processing subchapters for chapter chA" 5 1 (by decide)
  · have := h.2.2
      [{ id := "idA", course_name := "Course A", slug := "a",
         cover := none, thumbnail := none, trailer := none,
         is_free := none, is_coming_soon := none, is_new := none },
       { id := "idB", course_name := "Course B", slug := "b",
         cover := none, thumbnail := none, trailer := none,
         is_free := none, is_coming_soon := none, is_new := none }]
      rfl (by decide)
    simpa using this

/-- The chapter list a branch of the crawl works with: the chapters
returned for one course slug, or the empty list when the fetch raised. -/
def contentChapters (api : Api) (slug : String) : List ApiChapter :=
  match api.content slug with
  | Except.ok content => content.chapters
  | Except.error _ => []

/-- The chapters table after the chapter loop of
`scrape_course_content`: each fetched chapter is upserted in order,
linked to the course slug. -/
def insertChaptersTable (slug : String) (t : List ChapterRow)
    (chs : List ApiChapter) : List ChapterRow :=
  chs.foldl (fun t ch => (insert_chapter t (chapterRowOfApi ch slug)).2) t

theorem proj_foldl_of_pres {α β : Type} (proj : St → β) (g : St → α → St)
    (hg : ∀ s a, proj (g s a) = proj s) (l : List α) (s : St) :
    proj (l.foldl g s) = proj s := by
  induction l generalizing s with
  | nil => rfl
  | cons a rest ih => rw [List.foldl_cons, ih, hg]

theorem chapters_foldl_insertChapter (slug : String) (chs : List ApiChapter) (s : St) :
    (chs.foldl (fun s ch => { s with db := dbInsertChapter s.db ch slug }) s).db.chapters =
      insertChaptersTable slug s.db.chapters chs := by
  induction chs generalizing s with
  | nil => rfl
  | cons ch rest ih =>
    rw [List.foldl_cons]
    rw [ih]
    rfl

theorem chapters_scrape_course_content (api : Api) (slug : String) (s : St) :
    (scrape_course_content api slug s).1.db.chapters =
      insertChaptersTable slug s.db.chapters (contentChapters api slug) := by
  cases hc : api.content slug with
  | error e => simp [scrape_course_content, contentChapters, hc, insertChaptersTable, logEvent]
  | ok content =>
    simp only [scrape_course_content, contentChapters, hc]
    rw [proj_foldl_of_pres (fun s => s.db.chapters)
        (fun s b => { s with db := dbInsertBook s.db b slug }) (fun s b => rfl)]
    exact chapters_foldl_insertChapter slug content.chapters _

theorem chapters_scrape_courses (api : Api) (s : St) :
    (scrape_courses api s).1.db.chapters = s.db.chapters := by
  cases hc : api.courses with
  | error e => simp [scrape_courses, hc, logEvent]
  | ok cs =>
    simp only [scrape_courses, hc]
    exact proj_foldl_of_pres (fun s => s.db.chapters)
      (fun s c => { s with db := dbInsertCourse s.db c }) (fun s c => rfl) cs _

theorem chapters_scrape_subchapters (api : Api) (chId : String) (s : St) :
    (scrape_subchapters api chId s).1.db.chapters = s.db.chapters := by
  cases hc : api.subchapters chId with
  | error e => simp [scrape_subchapters, hc, logEvent]
  | ok subs =>
    simp only [scrape_subchapters, hc]
    exact proj_foldl_of_pres (fun s => s.db.chapters)
      (fun s sub => { s with db := dbInsertSubchapter s.db sub chId })
      (fun s sub => rfl) subs _

theorem chapters_scrape_subchapter_detail (api : Api) (cs ss : String) (s : St) :
    (scrape_subchapter_detail api cs ss s).1.db.chapters = s.db.chapters := by
  cases hd : api.detail cs ss with
  | error e => simp [scrape_subchapter_detail, hd, logEvent]
  | ok od =>
    cases od with
    | none => simp [scrape_subchapter_detail, hd, logEvent]
    | some d =>
      cases hv : d.video with
      | none => simp [scrape_subchapter_detail, hd, hv, logEvent]
      | some v =>
        simp only [scrape_subchapter_detail, hd, hv]
        exact proj_foldl_of_pres (fun s => s.db.chapters)
          (fun s l =>
            { s with db := dbInsertVideoLecturerLink (dbInsertLecturer s.db l) v.id l.id })
          (fun s l => rfl) _ _

theorem chapters_detail_foldl (api : Api) (cs : String) (subs : List ApiSubchapter)
    (s : St) (acc : List (String × Option ApiSubchapterDetail)) :
    (subs.foldl (detailStep api cs) (s, acc)).1.db.chapters = s.db.chapters := by
  induction subs generalizing s acc with
  | nil => rfl
  | cons sub rest ih =>
    rw [List.foldl_cons]
    simp only [detailStep]
    rw [ih, chapters_scrape_subchapter_detail]

theorem chapters_chapter_stage (api : Api) (cs chId : String) (s : St) :
    (scrape_chapter_subchapters_with_details api cs chId s).1.db.chapters =
      s.db.chapters := by
  simp only [scrape_chapter_subchapters_with_details]
  by_cases hemp : (scrape_subchapters api chId s).2.isEmpty = true
  · rw [if_pos hemp]
    exact chapters_scrape_subchapters api chId s
  · rw [if_neg hemp]
    rw [chapters_detail_foldl]
    simp only [logEvent]
    exact chapters_scrape_subchapters api chId s

theorem chapters_courseStep (api : Api) (s : St) (course : ApiCourse) :
    (courseStep api s course).db.chapters =
      insertChaptersTable course.slug s.db.chapters
        (contentChapters api course.slug) := by
  unfold courseStep
  rw [proj_foldl_of_pres (fun s => s.db.chapters) (chapterStep api course.slug)
      (fun s ch => chapters_chapter_stage api course.slug ch.chapter_id s)]
  exact chapters_scrape_course_content api course.slug s

theorem mem_insertChaptersTable_elim (slug : String) (t : List ChapterRow)
    (l : List ApiChapter) (q : ChapterRow)
    (hq : q ∈ insertChaptersTable slug t l) :
    q ∈ t ∨ ∃ ch ∈ l, q = chapterRowOfApi ch slug := by
  induction l generalizing t with
  | nil => exact Or.inl hq
  | cons ch rest ih =>
    rcases ih _ hq with h | ⟨ch', hch', heq⟩
    · rcases mem_replaceRows_elim _ _ t (chapterRowOfApi ch slug) q h with h2 | h2
      · exact Or.inl h2
      · exact Or.inr ⟨ch, List.mem_cons_self _ _, h2⟩
    · exact Or.inr ⟨ch', List.mem_cons_of_mem _ hch', heq⟩

theorem mem_insertChaptersTable (slug : String) (t : List ChapterRow)
    (l : List ApiChapter) (row : ChapterRow)
    (hstart : row ∈ t ∨ ∃ ch ∈ l, chapterRowOfApi ch slug = row)
    (hprot : ∀ ch ∈ l, sqlEq row.id (some ch.chapter_id) = false ∨
      chapterRowOfApi ch slug = row) :
    row ∈ insertChaptersTable slug t l := by
  induction l generalizing t with
  | nil =>
    rcases hstart with h | ⟨ch, hch, _⟩
    · exact h
    · exact absurd hch (List.not_mem_nil _)
  | cons ch rest ih =>
    have hprot' : ∀ ch' ∈ rest, sqlEq row.id (some ch'.chapter_id) = false ∨
        chapterRowOfApi ch' slug = row :=
      fun ch' hch' => hprot ch' (List.mem_cons_of_mem _ hch')
    have hmem_step : row ∈ t →
        row ∈ (insert_chapter t (chapterRowOfApi ch slug)).2 := by
      intro hrow
      rcases hprot ch (List.mem_cons_self _ _) with h | h
      · exact mem_replaceRows_of_noconflict _ _ t (chapterRowOfApi ch slug) row hrow h rfl
      · rw [← h]
        exact self_mem_replaceRows _ _ t _
    rcases hstart with h | ⟨ch', hch', heq⟩
    · exact ih _ (Or.inl (hmem_step h)) hprot'
    · rcases List.mem_cons.mp hch' with rfl | hch'2
      · refine ih _ (Or.inl ?_) hprot'
        rw [← heq]
        exact self_mem_replaceRows _ _ t _
      · exact ih _ (Or.inr ⟨ch', hch'2, heq⟩) hprot'

theorem filter_insertChaptersTable (slug : String) (t : List ChapterRow)
    (l : List ApiChapter)
    (hprot : ∀ ch ∈ l, ∀ q ∈ t, sqlEq (some slug) q.course_id = true →
      sqlEq q.id (some ch.chapter_id) = false)
    (hnodup : (l.map (fun ch => ch.chapter_id)).Nodup) :
    (insertChaptersTable slug t l).filter (fun q => sqlEq (some slug) q.course_id) =
      t.filter (fun q => sqlEq (some slug) q.course_id) ++
        l.map (fun ch => chapterRowOfApi ch slug) := by
  induction l generalizing t with
  | nil => simp [insertChaptersTable]
  | cons ch rest ih =>
    simp only [List.map_cons, List.nodup_cons] at hnodup
    have hstep : ((insert_chapter t (chapterRowOfApi ch slug)).2).filter
        (fun q => sqlEq (some slug) q.course_id) =
        t.filter (fun q => sqlEq (some slug) q.course_id) ++
          [chapterRowOfApi ch slug] := by
      show (replaceRows (fun q => q.id) (fun _ => none) t
        (chapterRowOfApi ch slug)).filter _ = _
      unfold replaceRows
      rw [List.filter_append]
      rw [filter_filter_of_imp _ _ t
        (fun q hq hmine => by
          have hid := hprot ch (List.mem_cons_self _ _) q hq hmine
          simpa [chapterRowOfApi, sqlEq] using hid)]
      congr 1
      rw [List.filter_eq_self]
      intro a ha
      rw [List.mem_singleton] at ha
      subst ha
      exact sqlEq_some_self slug
    have hprot' : ∀ ch' ∈ rest, ∀ q ∈ (insert_chapter t (chapterRowOfApi ch slug)).2,
        sqlEq (some slug) q.course_id = true →
        sqlEq q.id (some ch'.chapter_id) = false := by
      intro ch' hch' q hq hmine
      rcases mem_replaceRows_elim _ _ t (chapterRowOfApi ch slug) q hq with h | h
      · exact hprot ch' (List.mem_cons_of_mem _ hch') q h hmine
      · subst h
        show sqlEq (some ch.chapter_id) (some ch'.chapter_id) = false
        simp only [sqlEq, decide_eq_false_iff_not]
        intro heq
        exact hnodup.1 (heq ▸ List.mem_map.mpr ⟨ch', hch', rfl⟩)
    calc (insertChaptersTable slug ((insert_chapter t (chapterRowOfApi ch slug)).2)
            rest).filter (fun q => sqlEq (some slug) q.course_id)
        = ((insert_chapter t (chapterRowOfApi ch slug)).2).filter
            (fun q => sqlEq (some slug) q.course_id) ++
          rest.map (fun ch => chapterRowOfApi ch slug) := ih _ hprot' hnodup.2
      _ = (t.filter (fun q => sqlEq (some slug) q.course_id) ++
            [chapterRowOfApi ch slug]) ++
          rest.map (fun ch => chapterRowOfApi ch slug) := by rw [hstep]
      _ = t.filter (fun q => sqlEq (some slug) q.course_id) ++
          (chapterRowOfApi ch slug :: rest.map (fun ch => chapterRowOfApi ch slug)) := by
            rw [List.append_assoc]
            rfl

/-- The course list a crawl works with: the fetched courses, or the empty
list when the root fetch raised. -/
def coursesOf (api : Api) : List ApiCourse :=
  match api.courses with
  | Except.ok cs => cs
  | Except.error _ => []

theorem snd_scrape_courses (api : Api) (s : St) :
    (scrape_courses api s).2 = coursesOf api := by
  cases hc : api.courses <;> simp [scrape_courses, coursesOf, hc]

theorem mem_chapters_foldl_courseStep (api : Api) (l : List ApiCourse) (s : St)
    (row : ChapterRow)
    (hstart : row ∈ s.db.chapters ∨
      ∃ c ∈ l, ∃ ch ∈ contentChapters api c.slug, chapterRowOfApi ch c.slug = row)
    (hprot : ∀ c ∈ l, ∀ ch ∈ contentChapters api c.slug,
      sqlEq row.id (some ch.chapter_id) = false ∨ chapterRowOfApi ch c.slug = row) :
    row ∈ (l.foldl (courseStep api) s).db.chapters := by
  induction l generalizing s with
  | nil =>
    rcases hstart with h | ⟨c, hc, _⟩
    · exact h
    · exact absurd hc (List.not_mem_nil _)
  | cons c rest ih =>
    have hprot' : ∀ c' ∈ rest, ∀ ch ∈ contentChapters api c'.slug,
        sqlEq row.id (some ch.chapter_id) = false ∨ chapterRowOfApi ch c'.slug = row :=
      fun c' hc' => hprot c' (List.mem_cons_of_mem _ hc')
    have hstep : (row ∈ s.db.chapters ∨
        ∃ ch ∈ contentChapters api c.slug, chapterRowOfApi ch c.slug = row) →
        row ∈ (courseStep api s c).db.chapters := by
      intro h
      rw [chapters_courseStep]
      exact mem_insertChaptersTable c.slug _ _ row h (hprot c (List.mem_cons_self _ _))
    rw [List.foldl_cons]
    rcases hstart with h | ⟨c', hc', hch⟩
    · exact ih _ (Or.inl (hstep (Or.inl h))) hprot'
    · rcases List.mem_cons.mp hc' with rfl | hc'2
      · exact ih _ (Or.inl (hstep (Or.inr hch))) hprot'
      · exact ih _ (Or.inr ⟨c', hc'2, hch⟩) hprot'

theorem mem_chapters_foldl_courseStep_elim (api : Api) (l : List ApiCourse) (s : St) :
    ∀ q ∈ (l.foldl (courseStep api) s).db.chapters,
      q ∈ s.db.chapters ∨ ∃ c ∈ l, q.course_id = some c.slug := by
  induction l generalizing s with
  | nil => exact fun q hq => Or.inl hq
  | cons c rest ih =>
    intro q hq
    rw [List.foldl_cons] at hq
    rcases ih _ q hq with h | ⟨c', hc', hcid⟩
    · rw [chapters_courseStep] at h
      rcases mem_insertChaptersTable_elim _ _ _ q h with h2 | ⟨ch, _, heq⟩
      · exact Or.inl h2
      · subst heq
        exact Or.inr ⟨c, List.mem_cons_self _ _, rfl⟩
    · exact Or.inr ⟨c', List.mem_cons_of_mem _ hc', hcid⟩

/-- C5: branch failure isolation of the crawl orchestration. An exception
raised at any level — course list, course content, subchapter list,
subchapter detail — is caught at that level and yields the empty result
for that branch (empty course list, empty chapters/books content, empty
subchapter list, `none` detail), with only the fetch event appended and
no change to the database from that branch. Sibling branches proceed
unaffected: during a full crawl every chapter of every course whose
content fetch succeeded is persisted in the final database, whatever
happened in the other branches. The coherence hypothesis is the schema
invariant that chapter primary ids are globally unique across the crawl
(two fetched chapters sharing one id carry the same row). -/
theorem C5_branch_failure_isolated (api : Api) (s : St)
    (slug cs ss chId e : String) :
    (api.courses = Except.error e →
      scrape_courses api s = (logEvent s Event.fetchCourses, [])) ∧
    (api.content slug = Except.error e →
      scrape_course_content api slug s =
        (logEvent s (Event.fetchContent slug), { chapters := [], books := [] })) ∧
    (api.subchapters chId = Except.error e →
      scrape_subchapters api chId s =
        (logEvent s (Event.fetchSubchapters chId), [])) ∧
    (api.detail cs ss = Except.error e →
      scrape_subchapter_detail api cs ss s =
        (logEvent s (Event.fetchDetail cs ss), none)) ∧
    (∀ courses, api.courses = Except.ok courses →
      (∀ c1 ∈ courses, ∀ ch1 ∈ contentChapters api c1.slug,
        ∀ c2 ∈ courses, ∀ ch2 ∈ contentChapters api c2.slug,
        ch1.chapter_id = ch2.chapter_id →
        chapterRowOfApi ch1 c1.slug = chapterRowOfApi ch2 c2.slug) →
      ∀ c ∈ courses, ∀ ch ∈ contentChapters api c.slug,
        chapterRowOfApi ch c.slug ∈ (scrape_all api).db.chapters) := by
  refine ⟨?_, ?_, ?_, ?_, ?_⟩
  · intro h
    simp [scrape_courses, h]
  · intro h
    simp [scrape_course_content, h]
  · intro h
    simp [scrape_subchapters, h]
  · intro h
    simp [scrape_subchapter_detail, h]
  · intro courses hcourses hcoh c hc ch hch
    simp only [scrape_all]
    have h2 : (scrape_courses api { db := emptyDB, log := [] }).2 = courses := by
      simp [scrape_courses, hcourses]
    rw [h2]
    apply mem_chapters_foldl_courseStep
    · exact Or.inr ⟨c, hc, ch, hch, rfl⟩
    · intro c' hc' ch' hch'
      by_cases hid : ch.chapter_id = ch'.chapter_id
      · exact Or.inr (hcoh c' hc' ch' hch' c hc ch hch hid.symm)
      · refine Or.inl ?_
        show sqlEq (chapterRowOfApi ch c.slug).id (some ch'.chapter_id) = false
        simp [chapterRowOfApi, sqlEq, hid]

/-- Course record used by concrete fetch layers. -/
def courseA : ApiCourse :=
  { id := "idA", course_name := "Course A", slug := "a",
    cover := none, thumbnail := none, trailer := none,
    is_free := none, is_coming_soon := none, is_new := none }

/-- Course record used by concrete fetch layers. -/
def courseB : ApiCourse :=
  { id := "idB", course_name := "Course B", slug := "b",
    cover := none, thumbnail := none, trailer := none,
    is_free := none, is_coming_soon := none, is_new := none }

/-- Chapter record used by concrete fetch layers. -/
def chapB : ApiChapter :=
  { chapter_id := "chB", chapter_name := "B1", order := 0,
    subchapter_counts := 0, is_coming_soon := none }

/-- A fetch layer with one failing branch: the content fetch of course
"a" raises while the content fetch of course "b" succeeds. -/
def apiOneFailing : Api :=
  { courses := Except.ok [courseA, courseB],
    content := fun sl =>
      if sl = "b" then Except.ok { chapters := [chapB], books := [] }
      else Except.error "boom",
    subchapters := fun _ => Except.ok [],
    detail := fun _ _ => Except.ok none }

/-- C5 witness: on the one-failing-branch fetch layer, the failing course
branch yields empty content with the database untouched, and the sibling
course branch still persists its chapter row in the full crawl. -/
theorem C5_branch_failure_isolated_witness :
    (scrape_course_content apiOneFailing "a" { db := emptyDB, log := [] } =
      (logEvent { db := emptyDB, log := [] } (Event.fetchContent "a"),
        { chapters := [], books := [] })) ∧
    chapterRowOfApi chapB "b" ∈ (scrape_all apiOneFailing).db.chapters := by
  have h := C5_branch_failure_isolated apiOneFailing
    { db := emptyDB, log := [] } "a" "x" "y" "z" "boom"
  refine ⟨h.2.1 rfl, ?_⟩
  exact h.2.2.2.2 [courseA, courseB] rfl (by decide) courseB (by decide)
    chapB (by decide)

/-- C9: for every subchapter whose detail fetch returns no record, or a
record without a video sub-record, the detail-scrape step writes nothing
— the database is exactly the state before, so zero video rows and zero
lecturer links are inserted — and completes normally, returning `none`
respectively the detail record: absence of a video is a benign no-op. -/
theorem C9_no_video_detail_is_noop (api : Api) (cs ss : String) (s : St) :
    (api.detail cs ss = Except.ok none →
      scrape_subchapter_detail api cs ss s =
        (logEvent s (Event.fetchDetail cs ss), none)) ∧
    (∀ d, api.detail cs ss = Except.ok (some d) → d.video = none →
      scrape_subchapter_detail api cs ss s =
        (logEvent s (Event.fetchDetail cs ss), some d)) := by
  constructor
  · intro h
    simp [scrape_subchapter_detail, h]
  · intro d h hv
    simp [scrape_subchapter_detail, h, hv]

/-- A detail record of a non-video subchapter. -/
def detailNoVideo : ApiSubchapterDetail :=
  { id := "s1", subchapter_name := "S", subchapter_slug := "s",
    type_name := "exercise", thumbnail := none, order := 0,
    video := none, chapter_id := "ch1", chapter_name := "Ch" }

/-- A fetch layer whose detail fetches return a record without a video. -/
def apiDetailNoVideo : Api :=
  { courses := Except.ok [],
    content := fun _ => Except.ok { chapters := [], books := [] },
    subchapters := fun _ => Except.ok [],
    detail := fun _ _ => Except.ok (some detailNoVideo) }

/-- C9 witness: a detail fetch returning no record and a detail fetch
returning a record without a video both leave the empty database empty
and complete normally. -/
theorem C9_no_video_detail_is_noop_witness :
    (scrape_subchapter_detail apiTwoCourses "a" "sa" { db := emptyDB, log := [] } =
      (logEvent { db := emptyDB, log := [] } (Event.fetchDetail "a" "sa"), none)) ∧
    ((scrape_subchapter_detail apiDetailNoVideo "c" "s"
        { db := emptyDB, log := [] }).1.db = emptyDB) ∧
    ((scrape_subchapter_detail apiDetailNoVideo "c" "s"
        { db := emptyDB, log := [] }).2 = some detailNoVideo) := by
  have h1 := C9_no_video_detail_is_noop apiTwoCourses "a" "sa"
    { db := emptyDB, log := [] }
  have h2 := C9_no_video_detail_is_noop apiDetailNoVideo "c" "s"
    { db := emptyDB, log := [] }
  refine ⟨h1.1 rfl, ?_, ?_⟩
  · rw [h2.2 detailNoVideo rfl rfl]
    rfl
  · rw [h2.2 detailNoVideo rfl rfl]

/-- C10: chapter rows are linked to their parent course by the course
slug, and the read-side joins match on that slug. First: every chapter
row present after a course-content scrape is either a pre-existing row
or carries `course_id = slug`, the slug that keyed the fetch — the value
the scraper passes as the foreign key, not the course primary id. Second:
on a database whose prior chapters do not use that slug, the shared join
component `chaptersOfCourse` — the ON condition
`courses.slug = chapters.course_id` used by `get_course_videos`,
`list_available_courses` and the `show_stats` listing — associates with
the course row of that slug exactly the chapter rows the scrape wrote,
in order. Third: after a full crawl every chapter row of the database
carries the slug of one of the fetched courses as its `course_id`. -/
theorem C10_chapters_linked_by_slug (api : Api) (slug : String) (s : St)
    (c : CourseRow) :
    (∀ q ∈ (scrape_course_content api slug s).1.db.chapters,
      q ∈ s.db.chapters ∨ q.course_id = some slug) ∧
    ((∀ q ∈ s.db.chapters, sqlEq (some slug) q.course_id = false) →
      ((contentChapters api slug).map (fun ch => ch.chapter_id)).Nodup →
      c.slug = some slug →
      chaptersOfCourse (scrape_course_content api slug s).1.db c =
        (contentChapters api slug).map (fun ch => chapterRowOfApi ch slug)) ∧
    (∀ q ∈ (scrape_all api).db.chapters,
      ∃ c' ∈ coursesOf api, q.course_id = some c'.slug) := by
  refine ⟨?_, ?_, ?_⟩
  · intro q hq
    rw [chapters_scrape_course_content] at hq
    rcases mem_insertChaptersTable_elim _ _ _ q hq with h | ⟨ch, _, heq⟩
    · exact Or.inl h
    · subst heq
      exact Or.inr rfl
  · intro hfresh hnodup hcslug
    unfold chaptersOfCourse
    rw [hcslug, chapters_scrape_course_content]
    rw [filter_insertChaptersTable slug _ _
      (fun ch hch q hq hmine => absurd hmine (by simp [hfresh q hq])) hnodup]
    have hnil : s.db.chapters.filter (fun q => sqlEq (some slug) q.course_id) = [] := by
      rw [List.filter_eq_nil_iff]
      intro q hq
      simp [hfresh q hq]
    rw [hnil, List.nil_append]
  · intro q hq
    simp only [scrape_all] at hq
    rw [snd_scrape_courses] at hq
    rcases mem_chapters_foldl_courseStep_elim api _ _ q hq with h | h
    · rw [chapters_scrape_courses] at h
      exact absurd h (List.not_mem_nil _)
    · exact h

/-- The course row of course "a" as the crawl writes it. -/
def cRowA : CourseRow :=
  { id := some "idA", course_name := some "Course A", slug := some "a",
    cover_url := none, thumbnail_url := none, trailer_url := none,
    is_free := none, is_coming_soon := none }

/-- The chapter record of course "a" in `apiTwoCourses`. -/
def chapA : ApiChapter :=
  { chapter_id := "chA", chapter_name := "A1", order := 0,
    subchapter_counts := 1, is_coming_soon := none }

/-- C10 witness: on the concrete two-course fetch layer, scraping the
content of course "a" into the empty database writes exactly one chapter
row carrying `course_id = some "a"`, and the slug join recovers exactly
that row for the course row whose slug is "a". -/
theorem C10_chapters_linked_by_slug_witness :
    (chaptersOfCourse
        (scrape_course_content apiTwoCourses "a" { db := emptyDB, log := [] }).1.db
        cRowA = [chapterRowOfApi chapA "a"]) ∧
    ((chapterRowOfApi chapA "a").course_id = some "a") ∧
    (∃ c' ∈ coursesOf apiTwoCourses,
      (chapterRowOfApi chapA "a").course_id = some c'.slug) := by
  have h := C10_chapters_linked_by_slug apiTwoCourses "a"
    { db := emptyDB, log := [] } cRowA
  refine ⟨?_, rfl, ?_⟩
  · have := h.2.1 (by simp [emptyDB]) (by decide) rfl
    simpa [chapA] using this
  · refine h.2.2 (chapterRowOfApi chapA "a") ?_
    have hmem := h.1
    by_cases hin : chapterRowOfApi chapA "a" ∈
        (scrape_all apiTwoCourses).db.chapters
    · exact hin
    · exact absurd (by decide) hin

end Scraper

namespace Main

/-- Parsed command-line flags of `main` (src/main.py, lines 138-144). -/
structure Args where
  stats : Bool
  scrape : Bool
  download : Bool
  course : Option String
  output : Option String
deriving DecidableEq, Repr

/-- The work `main` can hand off to: one constructor per call into the
statistics listing, the full crawl, the downloader, or the argparse help
printer. -/
inductive Work
  | showStats
  | scrapeAll
  | downloadVideos (course output : Option String)
  | printHelp
deriving DecidableEq, Repr

/-- Outcome of one `main` invocation: the console messages printed (rich
markup and punctuation normalized), the work performed, and the exit
status when `sys.exit` was called (`none` for a normal return). -/
structure MainResult where
  messages : List String
  work : List Work
  exitCode : Option Nat
deriving DecidableEq, Repr

/-- `main` (src/main.py, lines 136-165) with `check_token` (lines 15-20)
inlined. After printing the banner the flags are dispatched in order
stats, scrape, download. The stats and download commands check that the
database file exists and, when it does not, print a warning and do no
work — the process then falls off the end of `main` and exits normally.
The scrape command calls `check_token` first: with no API token the
error is printed and `sys.exit(1)` raised before the crawl starts. -/
def main (args : Args) (tokenPresent dbExists : Bool) : MainResult :=
  let banner := ["Gradient Academy Scraper"]
  if args.stats then
    if !dbExists then
      { messages := banner ++ ["Database does not exist yet. Run --scrape first."],
        work := [], exitCode := none }
    else
      { messages := banner, work := [Work.showStats], exitCode := none }
  else if args.scrape then
    if !tokenPresent then
      { messages := banner ++
          ["Error: API Token not found!",
           "Please set the GRADIENT_API_TOKEN environment variable."],
        work := [], exitCode := some 1 }
    else
      { messages := banner, work := [Work.scrapeAll], exitCode := none }
  else if args.download then
    if !dbExists then
      { messages := banner ++ ["Database does not exist yet. Run --scrape first."],
        work := [], exitCode := none }
    else
      { messages := banner,
        work := [Work.downloadVideos args.course args.output],
        exitCode := none }
  else
    { messages := banner, work := [Work.printHelp], exitCode := none }

/-- C7: missing startup preconditions are reported and the process exits
before any work begins. A crawl without the API credential prints the
token error and exits with status 1 before the crawl is started; the
read-only stats and download commands without a database file print the
missing-database message and perform no work, after which the process
terminates (normal return, no work item ever executed). -/
theorem C7_startup_precondition_aborts (args : Args) (tokenPresent dbExists : Bool) :
    (args.stats = false → args.scrape = true → tokenPresent = false →
      (main args tokenPresent dbExists).work = [] ∧
      "Error: API Token not found!" ∈ (main args tokenPresent dbExists).messages ∧
      (main args tokenPresent dbExists).exitCode = some 1) ∧
    (args.stats = true → dbExists = false →
      (main args tokenPresent dbExists).work = [] ∧
      "Database does not exist yet. Run --scrape first." ∈
        (main args tokenPresent dbExists).messages ∧
      (main args tokenPresent dbExists).exitCode = none) ∧
    (args.stats = false → args.scrape = false → args.download = true →
      dbExists = false →
      (main args tokenPresent dbExists).work = [] ∧
      "Database does not exist yet. Run --scrape first." ∈
        (main args tokenPresent dbExists).messages ∧
      (main args tokenPresent dbExists).exitCode = none) := by
  refine ⟨?_, ?_, ?_⟩
  · intro h1 h2 h3
    simp [main, h1, h2, h3]
  · intro h1 h2
    simp [main, h1, h2]
  · intro h1 h2 h3 h4
    simp [main, h1, h2, h3, h4]

/-- C7 witness: the three startup-failure scenarios at concrete flag
settings. -/
theorem C7_startup_precondition_aborts_witness :
    ((main { stats := false, scrape := true, download := false,
             course := none, output := none } false true).work = [] ∧
      "Error: API Token not found!" ∈
        (main { stats := false, scrape := true, download := false,
                course := none, output := none } false true).messages ∧
      (main { stats := false, scrape := true, download := false,
              course := none, output := none } false true).exitCode = some 1) ∧
    ((main { stats := true, scrape := false, download := false,
             course := none, output := none } true false).work = [] ∧
      "Database does not exist yet. Run --scrape first." ∈
        (main { stats := true, scrape := false, download := false,
                course := none, output := none } true false).messages ∧
      (main { stats := true, scrape := false, download := false,
              course := none, output := none } true false).exitCode = none) ∧
    ((main { stats := false, scrape := false, download := true,
             course := some "intro", output := none } true false).work = [] ∧
      "Database does not exist yet. Run --scrape first." ∈
        (main { stats := false, scrape := false, download := true,
                course := some "intro", output := none } true false).messages ∧
      (main { stats := false, scrape := false, download := true,
              course := some "intro", output := none } true false).exitCode = none) := by
  refine ⟨?_, ?_, ?_⟩
  · exact (C7_startup_precondition_aborts
      { stats := false, scrape := true, download := false,
        course := none, output := none } false true).1 rfl rfl rfl
  · exact (C7_startup_precondition_aborts
      { stats := true, scrape := false, download := false,
        course := none, output := none } true false).2.1 rfl rfl
  · exact (C7_startup_precondition_aborts
      { stats := false, scrape := false, download := true,
        course := some "intro", output := none } true false).2.2 rfl rfl rfl rfl

end Main
